import Mathlib

/-!
# Verification of the machine-music auto-rig pipeline

Shallow embedding of the geometric/configuration core of
`scripts/blender-autorig.py` and `scripts/compute-mixamo-markers.py`.

Conventions:
* Python floats are modelled as exact rationals (`ℚ`) where the code is pure
  arithmetic, and as real numbers (`ℝ`) where the code takes square roots or
  exponentials (`mathutils.Vector.length`, `math.exp`).
* Fallible Python operations (`float(...)` on a malformed string, float
  division by zero raising `ZeroDivisionError`) are modelled with `Option`.
* Blender API state (vertex groups, edit bones) is modelled by explicit lists.
-/

namespace Autorig

/-! ## Configuration surface (blender-autorig.py lines 35-80, 174-195)

JSON values loadable from the config file.  Dicts and lists as *values* are
not modelled (every recognized key holds a scalar); they would take the same
malformed-value fallback path as `vnull`. -/

inductive PyVal where
  | vnull : PyVal
  | vbool : Bool → PyVal
  | vnum : ℚ → PyVal
  | vstr : String → PyVal
deriving DecidableEq

/-- A flat key→value settings table (the parsed JSON config object). -/
def Config : Type := String → Option PyVal

/-- Accumulate a run of decimal digits: returns (value, number of digits),
or `none` if some character is not a digit. -/
def digitsVal? (cs : List Char) : Option (ℕ × ℕ) :=
  cs.foldlM
    (fun (acc : ℕ × ℕ) c =>
      if c.isDigit then some (acc.1 * 10 + (c.toNat - 48), acc.2 + 1) else none)
    (0, 0)

/-- Python `str.strip()` on the character list (whitespace at both ends). -/
def stripList (cs : List Char) : List Char :=
  ((cs.dropWhile Char.isWhitespace).reverse.dropWhile Char.isWhitespace).reverse

/-- Python `str.lower()` for the ASCII range (every literal this pipeline
compares against is ASCII). -/
def charLower (c : Char) : Char :=
  if 65 ≤ c.toNat ∧ c.toNat ≤ 90 then Char.ofNat (c.toNat + 32) else c

/-- `s.strip().lower()` as used on selector values. -/
def pyStripLower (s : String) : String :=
  String.mk ((stripList s.toList).map charLower)

/-- Modelled from Python semantics: `float(s)` on a plain decimal string
(surrounding whitespace, optional sign, digits, optional single dot).
Exponent forms, `inf`/`nan` and digit underscores are outside the model;
every string rejected here is treated as malformed (Python raises
`ValueError`). -/
def pyParseFloat? (s : String) : Option ℚ :=
  let cs := stripList s.toList
  let sgnRest : ℚ × List Char :=
    match cs with
    | '-' :: r => (-1, r)
    | '+' :: r => (1, r)
    | r => (1, r)
  match sgnRest.2.splitOn '.' with
  | [a] =>
      (digitsVal? a).bind fun p =>
        if p.2 = 0 then none else some (sgnRest.1 * p.1)
  | [a, b] =>
      (digitsVal? a).bind fun pa =>
        (digitsVal? b).bind fun pb =>
          if pa.2 + pb.2 = 0 then none
          else some (sgnRest.1 * (pa.1 + (pb.1 : ℚ) / 10 ^ pb.2))
  | _ => none

/-- Modelled from Python semantics: `int(s)` on a decimal integer string
(whitespace, optional sign, digits only — `int("3.5")` raises). -/
def pyParseInt? (s : String) : Option ℤ :=
  let cs := stripList s.toList
  let sgnRest : ℤ × List Char :=
    match cs with
    | '-' :: r => (-1, r)
    | '+' :: r => (1, r)
    | r => (1, r)
  (digitsVal? sgnRest.2).bind fun p =>
    if p.2 = 0 then none else some (sgnRest.1 * p.1)

/-- Python `int(float)` truncates toward zero. -/
def ratTrunc (q : ℚ) : ℤ := if 0 ≤ q then ⌊q⌋ else -⌊-q⌋

/-- Modelled from Python semantics: `float(v)` — numbers pass through, bools
become 0/1, strings are parsed, `None` raises `TypeError`. -/
def pyFloat? : PyVal → Option ℚ
  | PyVal.vnull => none
  | PyVal.vbool b => some (if b then 1 else 0)
  | PyVal.vnum q => some q
  | PyVal.vstr s => pyParseFloat? s

/-- Modelled from Python semantics: `int(v)`. -/
def pyInt? : PyVal → Option ℤ
  | PyVal.vnull => none
  | PyVal.vbool b => some (if b then 1 else 0)
  | PyVal.vnum q => some (ratTrunc q)
  | PyVal.vstr s => pyParseInt? s

/-- Modelled from Python semantics: `str(v)` for the non-`None` values the
selectors can receive.  The exact rendering of numbers is a model choice
(Lean's `toString` on `ℚ`); it only matters that it is never one of the
recognized selector literals, which is true since it is made of digits,
`-` and `/`. -/
def pyStr : PyVal → String
  | PyVal.vnull => "None"
  | PyVal.vbool b => if b then "True" else "False"
  | PyVal.vnum q => toString q
  | PyVal.vstr s => s

/-- `cfg_number` (blender-autorig.py lines 48-53): `config.get(key, default)`
then `float(v)`, falling back to `float(default)` on any exception. -/
def cfg_number (config : Config) (key : String) (default : ℚ) : ℚ :=
  match config key with
  | none => default
  | some v => (pyFloat? v).getD default

/-- `cfg_int` (lines 55-60). -/
def cfg_int (config : Config) (key : String) (default : ℤ) : ℤ :=
  match config key with
  | none => default
  | some v => (pyInt? v).getD default

/-- `cfg_text` (lines 62-66): `None` maps to `str(default)`, everything else
to `str(v)`. -/
def cfg_text (config : Config) (key : String) (default : String) : String :=
  match config key with
  | none => default
  | some PyVal.vnull => default
  | some v => pyStr v

def truthyStrings : List String := ["1", "true", "yes", "y", "on"]

def falsyStrings : List String := ["0", "false", "no", "n", "off"]

/-- `cfg_bool` (lines 68-80): bools pass through, numbers via `bool(v)`,
strings via the recognized literal sets, anything else falls back to
`bool(default)`. -/
def cfg_bool (config : Config) (key : String) (default : Bool) : Bool :=
  match config key with
  | none => default
  | some (PyVal.vbool b) => b
  | some (PyVal.vnum q) => decide (q ≠ 0)
  | some (PyVal.vstr s) =>
      let t := pyStripLower s
      if t ∈ truthyStrings then true
      else if t ∈ falsyStrings then false
      else default
  | some PyVal.vnull => default

/-- Line 178: `cfg_text("skinning_method", "distance").strip().lower()`. -/
def skinning_method_raw (config : Config) : String :=
  pyStripLower (cfg_text config "skinning_method" "distance")

/-- Lines 187-189: unknown values fall back to `"bone_heat"`. -/
def skinning_method_effective (config : Config) : String :=
  let s := skinning_method_raw config
  if s = "bone_heat" ∨ s = "distance" then s else "bone_heat"

/-- Line 185. -/
def rig_source_raw (config : Config) : String :=
  pyStripLower (cfg_text config "rig_source" "mixamo_template")

/-- Lines 190-192: unknown values fall back to `"synthetic"`. -/
def rig_source_effective (config : Config) : String :=
  let s := rig_source_raw config
  if s = "mixamo_template" ∨ s = "synthetic" then s else "synthetic"

/-- Line 181. -/
def distance_weight_bone_scope_raw (config : Config) : String :=
  pyStripLower (cfg_text config "distance_weight_bone_scope" "core")

/-- Lines 193-195: unknown values fall back to `"core"`. -/
def distance_weight_bone_scope_effective (config : Config) : String :=
  let s := distance_weight_bone_scope_raw config
  if s = "core" ∨ s = "all" then s else "core"

/-- Line 174: `max(1, min(cfg_int("weight_top_n", 4), 8))`. -/
def weight_top_n_effective (config : Config) : ℤ :=
  max 1 (min (cfg_int config "weight_top_n" 4) 8)

/-- Line 175: `max(0.1, cfg_number("weight_falloff_strength", 2.0))`. -/
def weight_falloff_effective (config : Config) : ℚ :=
  max (1/10) (cfg_number config "weight_falloff_strength" 2)

/-- Line 176: `max(0.0, cfg_number("min_weight_threshold", 0.01))`. -/
def min_weight_effective (config : Config) : ℚ :=
  max 0 (cfg_number config "min_weight_threshold" (1/100))

/-- Line 177: `max(1, min(cfg_int("max_influences", 4), 8))`. -/
def max_influences_effective (config : Config) : ℤ :=
  max 1 (min (cfg_int config "max_influences" 4) 8)

/-- Empty configuration (no config file / all keys absent): every effective
value is the documented default. -/
def emptyConfig : Config := fun _ => none

end Autorig

namespace Autorig

/-! ## Vertex clouds and silhouette bands (blender-autorig.py lines 292-399)

All arithmetic here is pure (min/max/division/truncation), so Python floats
are modelled exactly by `ℚ`. -/

/-- A world-space vertex position (Blender Z-up). -/
structure Pt where
  x : ℚ
  y : ℚ
  z : ℚ
deriving DecidableEq

/-- `min(v.z for v in all_verts)` (callers guarantee nonempty; `0` for `[]`
is a junk value never reached through the guarded paths). -/
def zminL : List Pt → ℚ
  | [] => 0
  | v :: vs => vs.foldl (fun m u => min m u.z) v.z

/-- `max(v.z for v in all_verts)`. -/
def zmaxL : List Pt → ℚ
  | [] => 0
  | v :: vs => vs.foldl (fun m u => max m u.z) v.z

/-- Band index: `idx = int((v.z - z_min)/band_h); idx = max(0, min(idx,
num_bands-1))`.  This exact two-line computation appears in both scripts
(blender-autorig.py lines 318-319, compute-mixamo-markers.py lines 100-101). -/
def bandIndex (zmin bandh : ℚ) (n : ℕ) (z : ℚ) : ℕ :=
  (max 0 (min (ratTrunc ((z - zmin) / bandh)) ((n : ℤ) - 1))).toNat

/-- The list-based per-band aggregate `[x_min, x_max, y_min, y_max, count]`
of blender-autorig.py line 322. -/
structure BandL where
  xmin : ℚ
  xmax : ℚ
  ymin : ℚ
  ymax : ℚ
  count : ℕ
deriving DecidableEq

/-- Lines 320-328: a `None` slot is initialized from the first vertex,
otherwise min/max/count are folded in. -/
def updateBandL (b : Option BandL) (v : Pt) : Option BandL :=
  match b with
  | none => some ⟨v.x, v.x, v.y, v.y, 1⟩
  | some b =>
      some ⟨if v.x < b.xmin then v.x else b.xmin,
            if b.xmax < v.x then v.x else b.xmax,
            if v.y < b.ymin then v.y else b.ymin,
            if b.ymax < v.y then v.y else b.ymax,
            b.count + 1⟩

/-- Lines 316-328: fold every vertex into its band slot. -/
def accumBandsA (verts : List Pt) (zmin bandh : ℚ) (n : ℕ) : List (Option BandL) :=
  verts.foldl
    (fun bands v =>
      let idx := bandIndex zmin bandh n v.z
      bands.set idx (updateBandL (bands.getD idx none) v))
    (List.replicate n none)

/-- `num_bands = 100` (line 314). -/
def num_bands : ℕ := 100

/-- One entry `(width, band index, x_min, x_max)` of the arm-span scan. -/
structure WidthEntry where
  w : ℚ
  idx : ℕ
  xmin : ℚ
  xmax : ℚ
deriving DecidableEq

/-- Arm-span scan, lines 330-338: bands in `range(50, 95)` with
`b is None or b[4] < 3` skipped. -/
def armWidthEntries (bands : List (Option BandL)) : List WidthEntry :=
  (List.range' 50 45).filterMap fun i =>
    match bands.getD i none with
    | none => none
    | some b => if b.count < 3 then none else some ⟨b.xmax - b.xmin, i, b.xmin, b.xmax⟩

/-- Descending lexicographic comparison of Python tuples
`(w, i, x_min, x_max)` — `width_entries.sort(reverse=True)` (line 339). -/
def widthEntryGe (a b : WidthEntry) : Bool :=
  if a.w ≠ b.w then decide (b.w < a.w)
  else if a.idx ≠ b.idx then decide (b.idx < a.idx)
  else if a.xmin ≠ b.xmin then decide (b.xmin < a.xmin)
  else decide (b.xmax ≤ a.xmax)

/-- Hip scan x-minima, lines 351-359: bands 44..52 with
`b is not None and b[4] > 0`. -/
def hipXMins (bands : List (Option BandL)) : List ℚ :=
  (List.range' 44 9).filterMap fun i =>
    match bands.getD i none with
    | none => none
    | some b => if 0 < b.count then some b.xmin else none

/-- Hip scan x-maxima, lines 351-359. -/
def hipXMaxs (bands : List (Option BandL)) : List ℚ :=
  (List.range' 44 9).filterMap fun i =>
    match bands.getD i none with
    | none => none
    | some b => if 0 < b.count then some b.xmax else none

/-- Torso-width scan, lines 363-368: bands in `range(55, 70)` with
`b is not None and b[4] > 0`. -/
def torsoWidths (bands : List (Option BandL)) : List ℚ :=
  (List.range' 55 15).filterMap fun i =>
    match bands.getD i none with
    | none => none
    | some b => if 0 < b.count then some (b.xmax - b.xmin) else none

/-- Line 369: `sorted(torso_widths)[len(torso_widths) // 2] if torso_widths
else 0`. -/
def medianTorsoWidth (bands : List (Option BandL)) : ℚ :=
  let ws := torsoWidths bands
  if ws = [] then 0
  else (List.insertionSort (· ≤ ·) ws).getD (ws.length / 2) 0

/-- The Python iteration order of `range(arm_band_idx, 55, -1)`. -/
def shoulderScanRange (armIdx : ℕ) : List ℕ :=
  (List.range' 56 (armIdx - 55)).reverse

/-- Shoulder-junction scan, lines 371-378: walk down from the widest arm
band; the first band with `b[4] > 0` and width `< median*1.5` fixes the
shoulder height, defaulting to the arm height. -/
def shoulderZ (bands : List (Option BandL)) (armIdx : ℕ)
    (zmin bandh armHeightZ : ℚ) : ℚ :=
  let threshold := medianTorsoWidth bands * (3/2)
  match (shoulderScanRange armIdx).find? (fun i =>
      match bands.getD i none with
      | none => false
      | some b => decide (0 < b.count) && decide (b.xmax - b.xmin < threshold)) with
  | none => armHeightZ
  | some i => zmin + ((i : ℚ) + 1/2) * bandh

/-- The immutable landmark set (result dict of lines 381-391). -/
structure Landmarks where
  arm_tip_left_x : ℚ
  arm_tip_right_x : ℚ
  arm_height_z : ℚ
  arm_height_frac : ℚ
  hip_left_x : ℚ
  hip_right_x : ℚ
  hip_half_width : ℚ
  shoulder_junction_z : ℚ
  mesh_center_x : ℚ
deriving DecidableEq

/-- `analyze_mesh_silhouette` (lines 292-399): returns `none` for an empty
cloud, a cloud of height `< 0.01`, or when no arm-scan width entry
survives. -/
def analyze_mesh_silhouette (verts : List Pt) : Option Landmarks :=
  if verts = [] then none
  else
    let zmin := zminL verts
    let height := zmaxL verts - zmin
    if height < 1/100 then none
    else
      let bandh := height / (num_bands : ℚ)
      let bands := accumBandsA verts zmin bandh num_bands
      match List.insertionSort (fun a b => widthEntryGe a b = true) (armWidthEntries bands) with
      | [] => none
      | top0 :: rest =>
          let top_n := min 5 (top0 :: rest).length
          let top := (top0 :: rest).take top_n
          let arm_x_min := (top.map WidthEntry.xmin).sum / (top_n : ℚ)
          let arm_x_max := (top.map WidthEntry.xmax).sum / (top_n : ℚ)
          let arm_band_idx := top0.idx
          let arm_height_z := zmin + ((arm_band_idx : ℚ) + 1/2) * bandh
          let mins := hipXMins bands
          let maxs := hipXMaxs bands
          let hip_left_x := if mins = [] then 0 else mins.sum / (mins.length : ℚ)
          let hip_right_x := if maxs = [] then 0 else maxs.sum / (maxs.length : ℚ)
          some
            { arm_tip_left_x := arm_x_min
              arm_tip_right_x := arm_x_max
              arm_height_z := arm_height_z
              arm_height_frac := (arm_height_z - zmin) / height
              hip_left_x := hip_left_x
              hip_right_x := hip_right_x
              hip_half_width := (hip_right_x - hip_left_x) / 2
              shoulder_junction_z := shoulderZ bands arm_band_idx zmin bandh arm_height_z
              mesh_center_x := (arm_x_min + arm_x_max) / 2 }

end Autorig

namespace Markers

open Autorig (Pt ratTrunc zminL zmaxL)

/-! ## compute-mixamo-markers.py: class-based band accumulation (lines
74-107) -/

/-- The `Band` class (lines 88-95), with `float('inf')`/`float('-inf')`
initial extrema modelled by `⊤ : WithTop ℚ` and `⊥ : WithBot ℚ`. -/
structure BandC where
  x_min : WithTop ℚ
  x_max : WithBot ℚ
  y_min : WithTop ℚ
  y_max : WithBot ℚ
  count : ℕ
deriving DecidableEq

/-- `Band.__init__`. -/
def BandC.init : BandC := ⟨⊤, ⊥, ⊤, ⊥, 0⟩

/-- Lines 103-107: fold one vertex into a band. -/
def updateBandC (b : BandC) (v : Pt) : BandC :=
  { x_min := if (v.x : WithTop ℚ) < b.x_min then (v.x : WithTop ℚ) else b.x_min
    x_max := if b.x_max < (v.x : WithBot ℚ) then (v.x : WithBot ℚ) else b.x_max
    y_min := if (v.y : WithTop ℚ) < b.y_min then (v.y : WithTop ℚ) else b.y_min
    y_max := if b.y_max < (v.y : WithBot ℚ) then (v.y : WithBot ℚ) else b.y_max
    count := b.count + 1 }

/-- Band index with Python float semantics: dividing by a zero `band_h`
raises `ZeroDivisionError` (modelled as `none`); otherwise the clamped
truncation shared with blender-autorig.py. -/
def bandIndex? (zmin bandh : ℚ) (n : ℕ) (z : ℚ) : Option ℕ :=
  if bandh = 0 then none else some (Autorig.bandIndex zmin bandh n z)

/-- Lines 97-107: the accumulation loop.  `none` means the script died with
an uncaught `ZeroDivisionError` at the first vertex. -/
def accumBands? (verts : List Pt) (zmin bandh : ℚ) (n : ℕ) : Option (List BandC) :=
  verts.foldlM
    (fun bands v =>
      (bandIndex? zmin bandh n v.z).map fun idx =>
        bands.set idx (updateBandC (bands.getD idx BandC.init) v))
    (List.replicate n BandC.init)

/-- `num_bands = 200` (line 85). -/
def num_bands : ℕ := 200

/-- `height = z_max - z_min` (line 74). -/
def meshHeight (verts : List Pt) : ℚ := zmaxL verts - zminL verts

/-- `band_h = height / num_bands` (line 86). -/
def band_h (verts : List Pt) : ℚ := meshHeight verts / (num_bands : ℚ)

/-- The whole banding stage of the script on a vertex cloud. -/
def scriptBands? (verts : List Pt) : Option (List BandC) :=
  accumBands? verts (zminL verts) (band_h verts) num_bands

end Markers

namespace Autorig

/-! ## Real-valued geometry (mathutils.Vector)

`Vector.length` is a square root and the weight kernel uses `math.exp`, so
this part of the embedding lives in `ℝ`; the classical order on `ℝ` makes
these definitions noncomputable, which is forced by the genuinely
transcendental operations of the source. -/

/-- `mathutils.Vector` (3D). -/
structure Vec3 where
  x : ℝ
  y : ℝ
  z : ℝ

instance : Add Vec3 := ⟨fun a b => ⟨a.x + b.x, a.y + b.y, a.z + b.z⟩⟩

instance : Sub Vec3 := ⟨fun a b => ⟨a.x - b.x, a.y - b.y, a.z - b.z⟩⟩

instance : SMul ℝ Vec3 := ⟨fun t a => ⟨t * a.x, t * a.y, t * a.z⟩⟩

def Vec3.dot (a b : Vec3) : ℝ := a.x * b.x + a.y * b.y + a.z * b.z

def Vec3.lengthSq (a : Vec3) : ℝ := a.x ^ 2 + a.y ^ 2 + a.z ^ 2

noncomputable def Vec3.length (a : Vec3) : ℝ := Real.sqrt a.lengthSq

/-- `closest_point_on_segment` (blender-autorig.py lines 644-651). -/
noncomputable def closest_point_on_segment (point seg_a seg_b : Vec3) : Vec3 :=
  let ab := seg_b - seg_a
  if ab.lengthSq < 1e-12 then seg_a
  else seg_a + (max 0 (min 1 ((point - seg_a).dot ab / ab.lengthSq))) • ab

/-- `distance_to_bone` (lines 653-656); `bonePos` is the `bone_positions`
lookup of world-space (head, tail) pairs built at lines 637-642. -/
noncomputable def distance_to_bone (bonePos : String → Vec3 × Vec3)
    (point : Vec3) (bname : String) : ℝ :=
  (point - closest_point_on_segment point (bonePos bname).1 (bonePos bname).2).length

/-- `clamp01` (lines 667-672). -/
noncomputable def clamp01 (value : ℝ) : ℝ :=
  if value < 0 then 0 else if 1 < value then 1 else value

def LEFT_ARM_BONES : List String :=
  ["mixamorig:LeftShoulder", "mixamorig:LeftArm", "mixamorig:LeftForeArm",
   "mixamorig:LeftHand"]

def RIGHT_ARM_BONES : List String :=
  ["mixamorig:RightShoulder", "mixamorig:RightArm", "mixamorig:RightForeArm",
   "mixamorig:RightHand"]

def LEFT_LEG_BONES : List String :=
  ["mixamorig:LeftUpLeg", "mixamorig:LeftLeg", "mixamorig:LeftFoot",
   "mixamorig:LeftToeBase"]

def RIGHT_LEG_BONES : List String :=
  ["mixamorig:RightUpLeg", "mixamorig:RightLeg", "mixamorig:RightFoot",
   "mixamorig:RightToeBase"]

def HEAD_BONES : List String :=
  ["mixamorig:Neck", "mixamorig:Head", "mixamorig:HeadTop_End"]

def TORSO_BONES : List String :=
  ["mixamorig:Hips", "mixamorig:Spine", "mixamorig:Spine1", "mixamorig:Spine2"]

/-- Union of the six sets (line 709); membership-only use, so a list view of
the Python set is faithful. -/
def PRIMARY_WEIGHT_BONES : List String :=
  LEFT_ARM_BONES ++ RIGHT_ARM_BONES ++ LEFT_LEG_BONES ++ RIGHT_LEG_BONES ++
    TORSO_BONES ++ HEAD_BONES

/-- The anatomy reference fractions consumed by `anatomy_gate` (module
globals, possibly recalibrated at lines 577-606). -/
structure AnatomyParams where
  shoulder_outer : ℝ
  spine_h : ℝ
  hips_h : ℝ
  leg_x : ℝ
  spine1_h : ℝ
  neck_h : ℝ

/-- Values of the globals with an empty config (lines 150-166). -/
def defaultAnatomyParams : AnatomyParams :=
  { shoulder_outer := 0.08, spine_h := 0.52, hips_h := 0.48, leg_x := 0.06,
    spine1_h := 0.58, neck_h := 0.72 }

/-- `anatomy_gate` (lines 711-766).  The Python function is a chain of
early returns; inside the `TORSO_BONES` branch the four name tests are
exhaustive (the set has exactly those four names), so the final test is an
`else`. -/
noncomputable def anatomy_gate (P : AnatomyParams) (bone_name : String)
    (x_norm z_norm : ℝ) : ℝ :=
  let side_width := max (P.shoulder_outer * 1.6) 0.08
  let leg_width := max (P.leg_x * 2.4) 0.10
  let arm_min_z := max (P.spine_h - 0.03) 0.35
  let leg_max_z := min (P.hips_h + 0.10) 0.72
  if bone_name ∈ LEFT_ARM_BONES then
    if x_norm ≤ -0.01 ∨ z_norm < arm_min_z then 0
    else max 0.001 (clamp01 ((x_norm + 0.01) / side_width) *
      clamp01 ((z_norm - arm_min_z) / (1 - arm_min_z)))
  else if bone_name ∈ RIGHT_ARM_BONES then
    if 0.01 ≤ x_norm ∨ z_norm < arm_min_z then 0
    else max 0.001 (clamp01 ((-x_norm + 0.01) / side_width) *
      clamp01 ((z_norm - arm_min_z) / (1 - arm_min_z)))
  else if bone_name ∈ LEFT_LEG_BONES then
    if x_norm ≤ -0.01 ∨ leg_max_z < z_norm then 0
    else max 0.001 (clamp01 ((x_norm + 0.01) / leg_width) *
      clamp01 ((leg_max_z - z_norm) / max leg_max_z 0.001))
  else if bone_name ∈ RIGHT_LEG_BONES then
    if 0.01 ≤ x_norm ∨ leg_max_z < z_norm then 0
    else max 0.001 (clamp01 ((-x_norm + 0.01) / leg_width) *
      clamp01 ((leg_max_z - z_norm) / max leg_max_z 0.001))
  else
    let center_gate := 1 - clamp01 ((|x_norm| - 0.05) / max (P.shoulder_outer * 2.0) 0.25)
    if bone_name ∈ TORSO_BONES then
      if z_norm < 0.20 then (if bone_name = "mixamorig:Hips" then 1 else 0)
      else if bone_name = "mixamorig:Hips" then
        max 0.001 (0.6 + 0.4 * clamp01 ((P.hips_h + 0.08 - z_norm) / max (P.hips_h + 0.08) 0.001))
      else if bone_name = "mixamorig:Spine" then
        max 0.001 (center_gate * clamp01 ((z_norm - (P.hips_h - 0.05)) / 0.35))
      else if bone_name = "mixamorig:Spine1" then
        max 0.001 (center_gate * clamp01 ((z_norm - (P.spine_h - 0.10)) / 0.35))
      else
        max 0.001 (center_gate * clamp01 ((z_norm - (P.spine1_h - 0.10)) / 0.30))
    else if bone_name ∈ HEAD_BONES then
      if z_norm < P.neck_h - 0.06 then 0
      else max 0.001 (center_gate *
        clamp01 ((z_norm - (P.neck_h - 0.06)) / max (1 - (P.neck_h - 0.06)) 0.001))
    else 1

/-! ## The distance-weight pipeline (lines 827-897) -/

/-- Weight-algorithm tunables after the line 174-183 clamping. -/
structure WeightParams where
  weight_top_n : ℕ
  weight_falloff : ℝ
  min_weight : ℝ
  distance_use_anatomy_masks : Bool

/-- A `(bname, d, gate)` triple of the `distances` list (line 859). -/
structure Cand where
  bone : String
  dist : ℝ
  gate : ℝ

/-- Lines 851-866: the gated candidate list, with the all-masked-out
fallback to ungated distances over the same bone scope. -/
noncomputable def candidateList (useMasks : Bool) (bone_names : List String)
    (dist gate : String → ℝ) : List Cand :=
  let distances := bone_names.filterMap fun bname =>
    if useMasks then
      if gate bname ≤ 0 then none else some ⟨bname, dist bname, gate bname⟩
    else some ⟨bname, dist bname, 1⟩
  if distances.isEmpty then bone_names.map fun bname => ⟨bname, dist bname, 1⟩
  else distances

/-- The sort key of line 868 (`distances.sort(key=lambda x: x[1])`). -/
def candLe (a b : Cand) : Prop := a.dist ≤ b.dist

noncomputable instance : DecidableRel candLe := fun a b => inferInstanceAs (Decidable (a.dist ≤ b.dist))

instance : IsTotal Cand candLe := ⟨fun a b => le_total a.dist b.dist⟩

instance : IsTrans Cand candLe := ⟨fun _ _ _ h h' => le_trans h h'⟩

/-- Lines 868-869: stable sort by distance, then
`top = distances[:max(1, min(weight_top_n, len(distances)))]`. -/
noncomputable def topCandidates (WP : WeightParams) (bone_names : List String)
    (dist gate : String → ℝ) : List Cand :=
  let distances := candidateList WP.distance_use_anatomy_masks bone_names dist gate
  (List.insertionSort candLe distances).take
    (max 1 (min WP.weight_top_n distances.length))

/-- Line 874: `math.exp(-((d / min_dist - 1.0) ** 2) * weight_falloff) * gate`. -/
noncomputable def rawWeight (falloff min_dist : ℝ) (c : Cand) : ℝ :=
  Real.exp (-((c.dist / min_dist - 1) ^ 2) * falloff) * c.gate

/-- Lines 869-889: per-vertex weight assignment.  The result lists exactly
the vertex groups that received a nonzero weight (groups left untouched by
the loop hold no weight for this vertex).  `none` corresponds to the
`top[0]` IndexError on an empty candidate list, reachable only when
`bone_names = []`. -/
noncomputable def vertexWeights (WP : WeightParams) (bone_names : List String)
    (dist gate : String → ℝ) : Option (List (String × ℝ)) :=
  match topCandidates WP bone_names dist gate with
  | [] => none
  | t :: ts =>
      let min_dist := max t.dist 0.001
      let raw_weights := (t :: ts).map fun c => (c.bone, rawWeight WP.weight_falloff min_dist c)
      let total := (raw_weights.map Prod.snd).sum
      if total < 1e-9 then some [(t.bone, 1)]
      else some ((raw_weights.map fun p => (p.1, p.2 / total)).filter
        fun p => WP.min_weight < p.2)

/-- Lines 846-849 + 853-855: one iteration of the vertex loop of
`skin_mesh_with_distance_weights`, with `CX`, `BZ`, `H` the measured model
center/bottom/height globals. -/
noncomputable def skinVertex (AP : AnatomyParams) (WP : WeightParams)
    (bone_names : List String) (bonePos : String → Vec3 × Vec3)
    (CX BZ H : ℝ) (co_world : Vec3) : Option (List (String × ℝ)) :=
  let x_norm := (co_world.x - CX) / max H 1e-6
  let z_norm := (co_world.z - BZ) / max H 1e-6
  vertexWeights WP bone_names (distance_to_bone bonePos co_world)
    (fun bname => anatomy_gate AP bname x_norm z_norm)

/-- Lines 838-844: the active bone scope (`"core"` filters to the primary
set, empty filter result falls back to all bones). -/
def effectiveBoneNames (scope : String) (all_bone_names : List String) : List String :=
  if scope = "all" then all_bone_names
  else
    let core := all_bone_names.filter fun name => name ∈ PRIMARY_WEIGHT_BONES
    if core.isEmpty then all_bone_names else core

/-- The sort key of line 811 (`key=lambda item: item[1], reverse=True`). -/
def weightGe (a b : String × ℝ) : Prop := b.2 ≤ a.2

noncomputable instance : DecidableRel weightGe := fun a b => inferInstanceAs (Decidable (b.2 ≤ a.2))

instance : IsTotal (String × ℝ) weightGe := ⟨fun a b => le_total b.2 a.2⟩

instance : IsTrans (String × ℝ) weightGe := ⟨fun _ _ _ h h' => le_trans h' h⟩

/-- `clamp_vertex_influences` (lines 802-825) on one vertex's nonzero
weight table.  As in `vertexWeights`, groups holding weight `0.0` (the
cleared ones of lines 817-820) are represented by omission from the
list. -/
noncomputable def clamp_vertex_influences (max_influences : ℕ)
    (ws : List (String × ℝ)) : List (String × ℝ) :=
  if max_influences < 1 then ws
  else
    let influences := ws.filter fun p => 0 < p.2
    if influences.length ≤ max_influences then ws
    else
      let keep := (List.insertionSort weightGe influences).take max_influences
      let total := (keep.map Prod.snd).sum
      if total < 1e-9 then ws
      else keep.map fun p => (p.1, p.2 / total)

/-! ## Skeleton completion and proportion fitting (lines 401-568)

Bone positions are taken directly in world space: both functions run after
`fit_armature_to_model` has applied rotation/scale, so the remaining object
transform is a pure translation that cancels between `wm` and
`wm_inv`/`_height_frac`-style uses; modelling `matrix_world` as the
identity keeps head/tail world-space without loss. -/

/-- An edit bone: name, world head/tail, parent name. -/
structure Bone where
  name : String
  head : Vec3
  tail : Vec3
  parent : Option String

/-- `ensure_required_end_bones` (lines 538-568).  `H` is the measured model
height global. -/
noncomputable def ensure_required_end_bones (H : ℝ) (bones : List Bone) : List Bone :=
  if "mixamorig:HeadTop_End" ∈ bones.map Bone.name then bones
  else if "mixamorig:Head" ∉ bones.map Bone.name then bones
  else
    match bones.find? (fun b => b.name == "mixamorig:Head") with
    | none => bones
    | some head_bone =>
        let axis0 := head_bone.tail - head_bone.head
        let axis :=
          if axis0.length < 1e-6 then (⟨0, 0, max (H * 0.03) 0.03⟩ : Vec3)
          else (max (axis0.length * 0.3) (H * 0.03) / axis0.length) • axis0
        bones ++ [⟨"mixamorig:HeadTop_End", head_bone.tail, head_bone.tail + axis,
          some "mixamorig:Head"⟩]

/-- `scale_bone_x` (lines 469-478) applied to every bone in `names`; the
Python loop calls it once per (distinct) name, which is the same map. -/
noncomputable def scale_bone_x (pivot_x scale_factor : ℝ) (names : List String)
    (bones : List Bone) : List Bone :=
  bones.map fun b =>
    if b.name ∈ names then
      { b with head := ⟨pivot_x + (b.head.x - pivot_x) * scale_factor, b.head.y, b.head.z⟩,
               tail := ⟨pivot_x + (b.tail.x - pivot_x) * scale_factor, b.tail.y, b.tail.z⟩ }
    else b

/-- `adjust_armature_proportions` (lines 401-508).  The arm chains reuse
the same four names as the gate sets (lines 481-499 repeat them
literally). -/
noncomputable def adjust_armature_proportions (bones : List Bone)
    (landmarks : Option Landmarks) : List Bone :=
  match landmarks with
  | none => bones
  | some lm =>
      let find := fun n => bones.find? fun b => b.name == n
      match (find "mixamorig:Spine2").map Bone.head,
            (find "mixamorig:LeftHand").map Bone.tail,
            (find "mixamorig:RightHand").map Bone.tail with
      | some spine2_head, some left_hand_tail, some right_hand_tail =>
          let spine_cx := spine2_head.x
          let mesh_cx : ℝ := (lm.mesh_center_x : ℝ)
          let skel_left_extent := |left_hand_tail.x - spine_cx|
          let skel_right_extent := |right_hand_tail.x - spine_cx|
          let mesh_left_extent := |(lm.arm_tip_left_x : ℝ) - mesh_cx|
          let mesh_right_extent := |(lm.arm_tip_right_x : ℝ) - mesh_cx|
          let left_arm_s := mesh_left_extent / max skel_left_extent 0.001
          let right_arm_s := mesh_right_extent / max skel_right_extent 0.001
          let arm_scale := max 0.3 (min ((left_arm_s + right_arm_s) / 2) 5.0)
          let hip_scale :=
            match (find "mixamorig:LeftUpLeg").map Bone.head,
                  (find "mixamorig:RightUpLeg").map Bone.head with
            | some left_upleg_head, some _ =>
                if 0.001 < |left_upleg_head.x - spine_cx| ∧ 0.001 < (lm.hip_half_width : ℝ) then
                  max 0.3 (min ((lm.hip_half_width : ℝ) / |left_upleg_head.x - spine_cx|) 5.0)
                else 1
            | _, _ => 1
          if |arm_scale - 1| < 0.02 ∧ |hip_scale - 1| < 0.02 then bones
          else
            let left_fingers := (bones.map Bone.name).filter fun n =>
              n.startsWith "mixamorig:LeftHand" && n != "mixamorig:LeftHand"
            let right_fingers := (bones.map Bone.name).filter fun n =>
              n.startsWith "mixamorig:RightHand" && n != "mixamorig:RightHand"
            let bones1 := scale_bone_x spine_cx arm_scale (LEFT_ARM_BONES ++ left_fingers) bones
            let bones2 := scale_bone_x spine_cx arm_scale (RIGHT_ARM_BONES ++ right_fingers) bones1
            let bones3 := scale_bone_x spine_cx hip_scale LEFT_LEG_BONES bones2
            scale_bone_x spine_cx hip_scale RIGHT_LEG_BONES bones3
      | _, _, _ => bones

end Autorig

namespace Autorig

/-! ## Auxiliary definitions for the claims -/

/-- Erase every band record whose vertex count is below 3 — what the spec
claims *all* post-accumulation scans do to such bands. -/
def pruneBandsBelow3 (bands : List (Option BandL)) : List (Option BandL) :=
  bands.map fun ob => ob.bind fun b => if b.count < 3 then none else some b

/-- Erase only truly empty band records (count = 0). -/
def pruneEmptyBands (bands : List (Option BandL)) : List (Option BandL) :=
  bands.map fun ob => ob.bind fun b => if b.count = 0 then none else some b

/-- A band table whose only populated hip-range band (index 44) holds a
single vertex (count 1 < 3). -/
def lowCountBands : List (Option BandL) :=
  (List.replicate num_bands (none : Option BandL)).set 44 (some ⟨-5, 7, 0, 0, 1⟩)

/-- A vertex cloud with every vertex at the same height `z = 5`. -/
def singleBandCloud : List Pt := [⟨0, 0, 5⟩, ⟨1, 2, 5⟩, ⟨-1, 0, 5⟩]

/-- A small general-position cloud (used to instantiate band-accumulation
statements). -/
def smallCloud : List Pt := [⟨1, 2, 3⟩, ⟨0, 5, 4⟩, ⟨-2, 1, 3⟩]

/-- A one-bone skeleton: a `mixamorig:Head` bone of zero length and no
`mixamorig:HeadTop_End`. -/
def headOnlySkeleton : List Bone :=
  [⟨"mixamorig:Head", ⟨0, 0, 0⟩, ⟨0, 0, 0⟩, none⟩]

/-- The weight tunables under an empty config (lines 174-179):
`weight_top_n = 4`, `weight_falloff = 2.0`, `min_weight = 0.01`,
`distance_use_anatomy_masks = True`. -/
noncomputable def defaultWeightParams : WeightParams :=
  { weight_top_n := 4, weight_falloff := 2, min_weight := 1/100,
    distance_use_anatomy_masks := true }

/-- Two degenerate (point) bones named `A` and `B` at x = 1 and x = -2.6. -/
noncomputable def cexBonePos : String → Vec3 × Vec3 := fun bname =>
  if bname = "A" then ((⟨1, 0, 0⟩ : Vec3), (⟨1, 0, 0⟩ : Vec3))
  else ((⟨-(13/5), 0, 0⟩ : Vec3), (⟨-(13/5), 0, 0⟩ : Vec3))

/-- The world origin as a vertex. -/
def originV : Vec3 := ⟨0, 0, 0⟩

/-- One degenerate (point) bone extremely close to the origin
(x = 1/2000 < the 0.001 distance floor). -/
noncomputable def tinyBonePos : String → Vec3 × Vec3 := fun _ =>
  ((⟨1/2000, 0, 0⟩ : Vec3), (⟨1/2000, 0, 0⟩ : Vec3))

/-- The weight table the pipeline actually stores for `originV` against
`cexBonePos` under default parameters. -/
noncomputable def cexStoredWeights : List (String × ℝ) :=
  [("A", 1 / (1 + Real.exp (-(128/25))))]

/-- A config whose `skinning_method` is an unrecognized literal. -/
def badSelectorConfig : Config := fun key =>
  if key = "skinning_method" then some (PyVal.vstr "voxel") else none

/-- A config holding a malformed numeric value and an unknown selector. -/
def malformedConfig : Config := fun key =>
  if key = "weight_falloff_strength" then some (PyVal.vstr "fast")
  else if key = "rig_source" then some (PyVal.vstr "imported")
  else none

end Autorig

namespace Markers

open Autorig (Pt BandL)

/-- The (total) loop body of lines 99-107, taken when `band_h ≠ 0`. -/
def accumStep (zmin bandh : ℚ) (n : ℕ) (bands : List BandC) (v : Pt) : List BandC :=
  let idx := Autorig.bandIndex zmin bandh n v.z
  bands.set idx (updateBandC (bands.getD idx BandC.init) v)

/-- Correspondence between one list-based band slot (blender-autorig.py)
and one `Band` object (compute-mixamo-markers.py): an untouched slot is
`none` on one side and a pristine `Band()` on the other; a populated slot
carries identical extrema and count. -/
def bandRel : Option BandL → BandC → Prop
  | none, c => c = BandC.init
  | some b, c =>
      c.x_min = (b.xmin : WithTop ℚ) ∧ c.x_max = (b.xmax : WithBot ℚ) ∧
      c.y_min = (b.ymin : WithTop ℚ) ∧ c.y_max = (b.ymax : WithBot ℚ) ∧
      c.count = b.count ∧ 0 < b.count

end Markers

namespace Autorig

/-! # Proofs -/

theorem Vec3.sub_def (a b : Vec3) : a - b = ⟨a.x - b.x, a.y - b.y, a.z - b.z⟩ := rfl

theorem Vec3.add_def (a b : Vec3) : a + b = ⟨a.x + b.x, a.y + b.y, a.z + b.z⟩ := rfl

theorem Vec3.smul_def (t : ℝ) (a : Vec3) : t • a = ⟨t * a.x, t * a.y, t * a.z⟩ := rfl

/-- The completion pass is a no-op when the terminal bone already exists. -/
theorem ensure_of_mem (H : ℝ) (bones : List Bone)
    (h : "mixamorig:HeadTop_End" ∈ bones.map Bone.name) :
    ensure_required_end_bones H bones = bones := by
  unfold ensure_required_end_bones
  rw [if_pos h]

/-- The completion pass either changes nothing or appends exactly one bone
named `mixamorig:HeadTop_End`. -/
theorem ensure_adds_name (H : ℝ) (bones : List Bone) :
    ensure_required_end_bones H bones = bones ∨
      ∃ b, ensure_required_end_bones H bones = bones ++ [b] ∧
        b.name = "mixamorig:HeadTop_End" := by
  unfold ensure_required_end_bones
  by_cases h1 : "mixamorig:HeadTop_End" ∈ bones.map Bone.name
  · left; rw [if_pos h1]
  · rw [if_neg h1]
    by_cases h2 : "mixamorig:Head" ∉ bones.map Bone.name
    · left; rw [if_pos h2]
    · rw [if_neg h2]
      cases hf : bones.find? (fun b => b.name == "mixamorig:Head") with
      | none => left; rfl
      | some hb => right; exact ⟨_, rfl, rfl⟩

/-- **C7.** The bone-completion pass is idempotent: for every skeleton,
running `ensure_required_end_bones` twice yields a skeleton identical to
running it once; when `mixamorig:HeadTop_End` already exists the pass
changes nothing and creates no duplicate bone. -/
theorem claim7_ensure_required_end_bones_idempotent (H : ℝ) (bones : List Bone) :
    ensure_required_end_bones H (ensure_required_end_bones H bones) =
      ensure_required_end_bones H bones := by
  rcases ensure_adds_name H bones with e | ⟨b, e, hbname⟩
  · rw [e]
    exact e
  · rw [e]
    apply ensure_of_mem
    rw [List.map_append]
    simp [hbname]

/-- **C3 (counterexample).** An unrecognized `skinning_method` value falls
back to `"bone_heat"`, which differs from the key's documented default
`"distance"` (the value in effect when the key is absent), refuting the
claim that the effective value after fallback equals the documented
default. -/
theorem claim3_counterexample :
    skinning_method_effective badSelectorConfig = "bone_heat"
    ∧ skinning_method_effective emptyConfig = "distance"
    ∧ ("bone_heat" : String) ≠ "distance" :=
  ⟨by decide, by decide, by decide⟩

/-- **C3 (amended).** Malformed values for numeric / integer / boolean keys
fall back to the key's documented default; an unrecognized value for one
of the three enumerated selectors falls back to a fixed literal
(`"bone_heat"` / `"synthetic"` / `"core"`), which coincides with the key's
documented default only for `distance_weight_bone_scope`; every getter is
total (never fatal). -/
theorem claim3_config_fallbacks (config : Config) :
    (∀ key d v, config key = some v → pyFloat? v = none → cfg_number config key d = d)
    ∧ (∀ key d v, config key = some v → pyInt? v = none → cfg_int config key d = d)
    ∧ (∀ key d s, config key = some (PyVal.vstr s) → pyStripLower s ∉ truthyStrings →
        pyStripLower s ∉ falsyStrings → cfg_bool config key d = d)
    ∧ (skinning_method_raw config ≠ "bone_heat" → skinning_method_raw config ≠ "distance" →
        skinning_method_effective config = "bone_heat")
    ∧ (rig_source_raw config ≠ "mixamo_template" → rig_source_raw config ≠ "synthetic" →
        rig_source_effective config = "synthetic")
    ∧ (distance_weight_bone_scope_raw config ≠ "core" →
        distance_weight_bone_scope_raw config ≠ "all" →
        distance_weight_bone_scope_effective config = "core")
    ∧ skinning_method_effective emptyConfig = "distance"
    ∧ rig_source_effective emptyConfig = "mixamo_template"
    ∧ distance_weight_bone_scope_effective emptyConfig = "core" := by
  refine ⟨?_, ?_, ?_, ?_, ?_, ?_, by decide, by decide, by decide⟩
  · intro key d v h hv
    unfold cfg_number
    rw [h]
    simp [hv]
  · intro key d v h hv
    unfold cfg_int
    rw [h]
    simp [hv]
  · intro key d s h h1 h2
    unfold cfg_bool
    rw [h]
    simp only []
    rw [if_neg h1, if_neg h2]
  · intro h1 h2
    unfold skinning_method_effective
    rw [if_neg (by simp [h1, h2])]
  · intro h1 h2
    unfold rig_source_effective
    rw [if_neg (by simp [h1, h2])]
  · intro h1 h2
    unfold distance_weight_bone_scope_effective
    rw [if_neg (by simp [h1, h2])]

/-- Witness for C3: a malformed `weight_falloff_strength` keeps the default
`2.0`, and an unknown `rig_source` falls back to `"synthetic"`. -/
theorem claim3_witness :
    (malformedConfig "weight_falloff_strength" = some (PyVal.vstr "fast")
      ∧ pyFloat? (PyVal.vstr "fast") = none
      ∧ cfg_number malformedConfig "weight_falloff_strength" 2 = 2)
    ∧ (rig_source_raw malformedConfig ≠ "mixamo_template"
      ∧ rig_source_raw malformedConfig ≠ "synthetic"
      ∧ rig_source_effective malformedConfig = "synthetic") :=
  ⟨⟨rfl, by decide,
    (claim3_config_fallbacks malformedConfig).1 "weight_falloff_strength" 2 _ rfl (by decide)⟩,
   ⟨by decide, by decide,
    (claim3_config_fallbacks malformedConfig).2.2.2.2.1 (by decide) (by decide)⟩⟩

end Autorig

namespace Autorig

/-- `getD` through a map whose function fixes the default. -/
theorem getD_map_of_none (f : Option BandL → Option BandL) (hf : f none = none)
    (bands : List (Option BandL)) (i : ℕ) :
    (bands.map f).getD i none = f (bands.getD i none) := by
  induction bands generalizing i with
  | nil => simp [hf]
  | cons a l ih =>
      cases i with
      | zero => simp
      | succ j => simpa using ih j

/-- `find?` only looks at predicate values on the list. -/
theorem find?_congr {α : Type} (l : List α) (p q : α → Bool)
    (h : ∀ x ∈ l, p x = q x) : l.find? p = l.find? q := by
  induction l with
  | nil => rfl
  | cons a t ih =>
      rw [List.find?_cons, List.find?_cons, h a (List.mem_cons_self a t)]
      cases q a
      · exact ih fun x hx => h x (List.mem_cons_of_mem a hx)
      · rfl

/-- The arm-span scan is unchanged if bands with count < 3 are erased. -/
theorem armWidthEntries_pruneBelow3 (bands : List (Option BandL)) :
    armWidthEntries (pruneBandsBelow3 bands) = armWidthEntries bands := by
  unfold armWidthEntries
  apply List.filterMap_congr
  intro i _
  rw [pruneBandsBelow3, getD_map_of_none _ rfl]
  cases hob : bands.getD i none with
  | none => rfl
  | some b =>
      by_cases hc : b.count < 3
      · simp [Option.bind, hc]
      · simp [Option.bind, hc]

/-- The hip scan (x-minima) is unchanged if only empty bands are erased. -/
theorem hipXMins_pruneEmpty (bands : List (Option BandL)) :
    hipXMins (pruneEmptyBands bands) = hipXMins bands := by
  unfold hipXMins
  apply List.filterMap_congr
  intro i _
  rw [pruneEmptyBands, getD_map_of_none _ rfl]
  cases hob : bands.getD i none with
  | none => rfl
  | some b =>
      by_cases hc : b.count = 0
      · simp [Option.bind, hc]
      · simp [Option.bind, hc, Nat.pos_of_ne_zero hc]

/-- The hip scan (x-maxima) is unchanged if only empty bands are erased. -/
theorem hipXMaxs_pruneEmpty (bands : List (Option BandL)) :
    hipXMaxs (pruneEmptyBands bands) = hipXMaxs bands := by
  unfold hipXMaxs
  apply List.filterMap_congr
  intro i _
  rw [pruneEmptyBands, getD_map_of_none _ rfl]
  cases hob : bands.getD i none with
  | none => rfl
  | some b =>
      by_cases hc : b.count = 0
      · simp [Option.bind, hc]
      · simp [Option.bind, hc, Nat.pos_of_ne_zero hc]

/-- The torso-width scan is unchanged if only empty bands are erased. -/
theorem torsoWidths_pruneEmpty (bands : List (Option BandL)) :
    torsoWidths (pruneEmptyBands bands) = torsoWidths bands := by
  unfold torsoWidths
  apply List.filterMap_congr
  intro i _
  rw [pruneEmptyBands, getD_map_of_none _ rfl]
  cases hob : bands.getD i none with
  | none => rfl
  | some b =>
      by_cases hc : b.count = 0
      · simp [Option.bind, hc]
      · simp [Option.bind, hc, Nat.pos_of_ne_zero hc]

/-- The shoulder-junction scan is unchanged if only empty bands are
erased. -/
theorem shoulderZ_pruneEmpty (bands : List (Option BandL)) (armIdx : ℕ)
    (zmin bandh armHeightZ : ℚ) :
    shoulderZ (pruneEmptyBands bands) armIdx zmin bandh armHeightZ =
      shoulderZ bands armIdx zmin bandh armHeightZ := by
  unfold shoulderZ
  have hm : medianTorsoWidth (pruneEmptyBands bands) = medianTorsoWidth bands := by
    unfold medianTorsoWidth
    rw [torsoWidths_pruneEmpty]
  rw [hm]
  simp only []
  have hfind : (shoulderScanRange armIdx).find? (fun i =>
        match (pruneEmptyBands bands).getD i none with
        | none => false
        | some b => decide (0 < b.count) &&
            decide (b.xmax - b.xmin < medianTorsoWidth bands * (3/2))) =
      (shoulderScanRange armIdx).find? (fun i =>
        match bands.getD i none with
        | none => false
        | some b => decide (0 < b.count) &&
            decide (b.xmax - b.xmin < medianTorsoWidth bands * (3/2))) := by
    apply find?_congr
    intro i _
    rw [pruneEmptyBands, getD_map_of_none _ rfl]
    cases hob : bands.getD i none with
    | none => rfl
    | some b =>
        by_cases hc : b.count = 0
        · simp [Option.bind, hc]
        · simp [Option.bind, hc]
  rw [hfind]


/-- **C5 (amended).** Of the four scans that follow band accumulation, only
the arm-span scan ignores bands with vertex count below 3; the hip-width,
torso-width and shoulder-junction scans consume every populated band
(count ≥ 1) and ignore only empty ones. -/
theorem claim5_scan_thresholds (bands : List (Option BandL)) (armIdx : ℕ)
    (zmin bandh armHeightZ : ℚ) :
    armWidthEntries (pruneBandsBelow3 bands) = armWidthEntries bands
    ∧ hipXMins (pruneEmptyBands bands) = hipXMins bands
    ∧ hipXMaxs (pruneEmptyBands bands) = hipXMaxs bands
    ∧ torsoWidths (pruneEmptyBands bands) = torsoWidths bands
    ∧ shoulderZ (pruneEmptyBands bands) armIdx zmin bandh armHeightZ =
        shoulderZ bands armIdx zmin bandh armHeightZ :=
  ⟨armWidthEntries_pruneBelow3 bands, hipXMins_pruneEmpty bands,
   hipXMaxs_pruneEmpty bands, torsoWidths_pruneEmpty bands,
   shoulderZ_pruneEmpty bands armIdx zmin bandh armHeightZ⟩

/-- **C5 (counterexample).** The hip-width scan does *not* ignore bands
with count below the threshold 3: a band holding a single vertex (count 1)
at index 44 is consumed by the hip scan, and erasing sub-threshold bands
changes the scan's output. -/
theorem claim5_counterexample :
    hipXMins lowCountBands = [-5]
    ∧ hipXMins (pruneBandsBelow3 lowCountBands) = []
    ∧ hipXMins lowCountBands ≠ hipXMins (pruneBandsBelow3 lowCountBands) :=
  ⟨by decide, by decide, by decide⟩

end Autorig

namespace Autorig

/-- **C6.** A vertex cloud with vertical extent below 0.01 (in particular a
single-Z cloud) or with no valid arm-scan width entry makes the silhouette
analyzer return null landmarks (no exception), and the proportion fitter
passed that null result leaves the skeleton exactly as the uniform fit
produced it. -/
theorem claim6_null_landmarks_skip (verts : List Pt) (bones : List Bone)
    (h : zmaxL verts - zminL verts < 1/100
      ∨ armWidthEntries (accumBandsA verts (zminL verts)
          ((zmaxL verts - zminL verts) / (num_bands : ℚ)) num_bands) = []) :
    analyze_mesh_silhouette verts = none
    ∧ adjust_armature_proportions bones (analyze_mesh_silhouette verts) = bones := by
  have hnone : analyze_mesh_silhouette verts = none := by
    unfold analyze_mesh_silhouette
    by_cases hv : verts = []
    · rw [if_pos hv]
    · rw [if_neg hv]
      by_cases hh : zmaxL verts - zminL verts < 1/100
      · rw [if_pos hh]
      · rw [if_neg hh]
        simp only []
        rcases h with h | h
        · exact absurd h hh
        · rw [h]
          rfl
  exact ⟨hnone, by rw [hnone]; rfl⟩


/-- Witness for C6 at a concrete single-Z cloud and a concrete skeleton. -/
theorem claim6_witness :
    (zmaxL singleBandCloud - zminL singleBandCloud < 1/100)
    ∧ analyze_mesh_silhouette singleBandCloud = none
    ∧ adjust_armature_proportions headOnlySkeleton (analyze_mesh_silhouette singleBandCloud) =
        headOnlySkeleton := by
  have hlt : zmaxL singleBandCloud - zminL singleBandCloud < 1/100 := by
    norm_num [zminL, zmaxL, singleBandCloud]
  have h := claim6_null_landmarks_skip singleBandCloud headOnlySkeleton (Or.inl hlt)
  exact ⟨hlt, h.1, h.2⟩

/-- Folding `min` over a constant-z cloud is the identity. -/
theorem foldl_min_const (l : List Pt) (m : ℚ) (h : ∀ u ∈ l, u.z = m) :
    l.foldl (fun acc u => min acc u.z) m = m := by
  induction l with
  | nil => rfl
  | cons a t ih =>
      rw [List.foldl_cons, h a (List.mem_cons_self a t), min_self]
      exact ih fun u hu => h u (List.mem_cons_of_mem a hu)

/-- Folding `max` over a constant-z cloud is the identity. -/
theorem foldl_max_const (l : List Pt) (m : ℚ) (h : ∀ u ∈ l, u.z = m) :
    l.foldl (fun acc u => max acc u.z) m = m := by
  induction l with
  | nil => rfl
  | cons a t ih =>
      rw [List.foldl_cons, h a (List.mem_cons_self a t), max_self]
      exact ih fun u hu => h u (List.mem_cons_of_mem a hu)

/-- On a constant-z cloud the minimum z is that constant. -/
theorem zminL_const (verts : List Pt) (v : Pt) (hv : v ∈ verts)
    (h : ∀ u ∈ verts, u.z = v.z) : zminL verts = v.z := by
  cases verts with
  | nil => exact absurd hv (List.not_mem_nil v)
  | cons a t =>
      show t.foldl (fun m u => min m u.z) a.z = v.z
      rw [h a (List.mem_cons_self a t)]
      exact foldl_min_const t v.z fun u hu => h u (List.mem_cons_of_mem a hu)

/-- On a constant-z cloud the maximum z is that constant. -/
theorem zmaxL_const (verts : List Pt) (v : Pt) (hv : v ∈ verts)
    (h : ∀ u ∈ verts, u.z = v.z) : zmaxL verts = v.z := by
  cases verts with
  | nil => exact absurd hv (List.not_mem_nil v)
  | cons a t =>
      show t.foldl (fun m u => max m u.z) a.z = v.z
      rw [h a (List.mem_cons_self a t)]
      exact foldl_max_const t v.z fun u hu => h u (List.mem_cons_of_mem a hu)

end Autorig

namespace Markers

open Autorig (Pt BandL)

/-- With `band_h = 0`, the very first vertex kills the accumulation loop
(`ZeroDivisionError`). -/
theorem accumBands?_of_bandh_zero (verts : List Pt) (zmin : ℚ) (n : ℕ)
    (hne : verts ≠ []) :
    accumBands? verts zmin 0 n = none := by
  cases verts with
  | nil => exact absurd rfl hne
  | cons a t => simp [accumBands?, bandIndex?]

/-- With a nonzero `band_h` every step succeeds and the monadic fold is the
plain fold of `accumStep`. -/
theorem accumBands?_eq_foldl (verts : List Pt) (zmin bandh : ℚ) (n : ℕ)
    (hb : bandh ≠ 0) :
    accumBands? verts zmin bandh n =
      some (verts.foldl (accumStep zmin bandh n) (List.replicate n BandC.init)) := by
  have key : ∀ (vs : List Pt) (init : List BandC),
      vs.foldlM
        (fun bands v =>
          (bandIndex? zmin bandh n v.z).map fun idx =>
            bands.set idx (updateBandC (bands.getD idx BandC.init) v)) init
      = some (vs.foldl (accumStep zmin bandh n) init) := by
    intro vs
    induction vs with
    | nil => intro init; rfl
    | cons a t ih =>
        intro init
        have hstep : bandIndex? zmin bandh n a.z = some (Autorig.bandIndex zmin bandh n a.z) := by
          rw [bandIndex?, if_neg hb]
        rw [List.foldlM_cons, List.foldl_cons, hstep, Option.map_some']
        exact ih _
  exact key verts _

end Markers

namespace Autorig

/-- `getD` at the index written by `set`. -/
theorem getD_set_self {α : Type} (l : List α) (i : ℕ) (x d : α)
    (h : i < l.length) : (l.set i x).getD i d = x := by
  induction l generalizing i with
  | nil => simp at h
  | cons a t ih =>
      cases i with
      | zero => rfl
      | succ j => simpa using ih j (by simpa using h)

/-- `getD` away from the index written by `set`. -/
theorem getD_set_ne {α : Type} (l : List α) (i j : ℕ) (x d : α)
    (h : i ≠ j) : (l.set i x).getD j d = l.getD j d := by
  induction l generalizing i j with
  | nil => rfl
  | cons a t ih =>
      cases i with
      | zero =>
          cases j with
          | zero => exact absurd rfl h
          | succ k => simp
      | succ m =>
          cases j with
          | zero => simp
          | succ k => simpa using ih m k fun e => h (by rw [e])

/-- `getD` on `replicate` with the replicated element as default. -/
theorem getD_replicate {α : Type} (n j : ℕ) (d : α) :
    (List.replicate n d).getD j d = d := by
  induction n generalizing j with
  | zero => rfl
  | succ m ih =>
      cases j with
      | zero => rfl
      | succ k => simp [ih k]

/-- The clamped band index is always in range. -/
theorem bandIndex_lt (zmin bandh : ℚ) (n : ℕ) (z : ℚ) (hn : 0 < n) :
    bandIndex zmin bandh n z < n := by
  unfold bandIndex
  generalize ratTrunc ((z - zmin) / bandh) = k
  omega

end Autorig

namespace Markers

open Autorig (Pt BandL)

/-- **C10.** `compute-mixamo-markers.py` has no degenerate-height guard:
a nonempty cloud whose vertices share one Z gives `band_h = 0` and the
band-accumulation loop dies on a division by zero (an uncaught
`ZeroDivisionError`, not a soft fallback and not the `sys.exit(1)` path);
conversely a strictly positive height makes the whole banding stage
total. -/
theorem claim10_no_degenerate_height_guard (verts : List Pt) (v : Pt)
    (hv : v ∈ verts) :
    ((∀ u ∈ verts, u.z = v.z) → band_h verts = 0 ∧ scriptBands? verts = none)
    ∧ (0 < meshHeight verts → ∃ bs, scriptBands? verts = some bs) := by
  constructor
  · intro hsame
    have hmin := Autorig.zminL_const verts v hv hsame
    have hmax := Autorig.zmaxL_const verts v hv hsame
    have hb : band_h verts = 0 := by
      rw [band_h, meshHeight, hmin, hmax]
      norm_num
    refine ⟨hb, ?_⟩
    rw [scriptBands?, hb]
    refine accumBands?_of_bandh_zero verts _ _ ?_
    rintro rfl
    exact absurd hv (List.not_mem_nil v)
  · intro hpos
    have hb : band_h verts ≠ 0 := by
      rw [band_h]
      exact (div_pos hpos (by norm_num [num_bands])).ne'
    exact ⟨_, accumBands?_eq_foldl verts _ _ _ hb⟩

/-- Witness for C10 at a concrete constant-Z cloud. -/
theorem claim10_witness :
    ((⟨0, 0, 5⟩ : Pt) ∈ Autorig.singleBandCloud)
    ∧ (∀ u ∈ Autorig.singleBandCloud, u.z = (5 : ℚ))
    ∧ band_h Autorig.singleBandCloud = 0
    ∧ scriptBands? Autorig.singleBandCloud = none := by
  have hmem : (⟨0, 0, 5⟩ : Pt) ∈ Autorig.singleBandCloud := by decide
  have hsame : ∀ u ∈ Autorig.singleBandCloud, u.z = (⟨0, 0, 5⟩ : Pt).z := by decide
  have h := (claim10_no_degenerate_height_guard Autorig.singleBandCloud ⟨0, 0, 5⟩ hmem).1 hsame
  exact ⟨hmem, hsame, h.1, h.2⟩

/-- One updated slot stays related: the list-based update and the
class-based update move in lockstep. -/
theorem bandRel_update (ob : Option BandL) (c : BandC) (v : Pt)
    (h : bandRel ob c) :
    bandRel (Autorig.updateBandL ob v) (updateBandC c v) := by
  cases ob with
  | none =>
      have hc : c = BandC.init := h
      subst hc
      refine ⟨?_, ?_, ?_, ?_, rfl, Nat.one_pos⟩
      · show (if (v.x : WithTop ℚ) < (⊤ : WithTop ℚ) then (v.x : WithTop ℚ) else ⊤) =
          (v.x : WithTop ℚ)
        rw [if_pos (WithTop.coe_lt_top v.x)]
      · show (if (⊥ : WithBot ℚ) < (v.x : WithBot ℚ) then (v.x : WithBot ℚ) else ⊥) =
          (v.x : WithBot ℚ)
        rw [if_pos (WithBot.bot_lt_coe v.x)]
      · show (if (v.y : WithTop ℚ) < (⊤ : WithTop ℚ) then (v.y : WithTop ℚ) else ⊤) =
          (v.y : WithTop ℚ)
        rw [if_pos (WithTop.coe_lt_top v.y)]
      · show (if (⊥ : WithBot ℚ) < (v.y : WithBot ℚ) then (v.y : WithBot ℚ) else ⊥) =
          (v.y : WithBot ℚ)
        rw [if_pos (WithBot.bot_lt_coe v.y)]
  | some b =>
      obtain ⟨h1, h2, h3, h4, h5, _⟩ := h
      refine ⟨?_, ?_, ?_, ?_, ?_, Nat.succ_pos _⟩
      · show (if (v.x : WithTop ℚ) < c.x_min then (v.x : WithTop ℚ) else c.x_min) =
          ((if v.x < b.xmin then v.x else b.xmin : ℚ) : WithTop ℚ)
        rw [h1]
        by_cases hx : v.x < b.xmin
        · rw [if_pos (WithTop.coe_lt_coe.mpr hx), if_pos hx]
        · rw [if_neg fun hcc => hx (WithTop.coe_lt_coe.mp hcc), if_neg hx]
      · show (if c.x_max < (v.x : WithBot ℚ) then (v.x : WithBot ℚ) else c.x_max) =
          ((if b.xmax < v.x then v.x else b.xmax : ℚ) : WithBot ℚ)
        rw [h2]
        by_cases hx : b.xmax < v.x
        · rw [if_pos (WithBot.coe_lt_coe.mpr hx), if_pos hx]
        · rw [if_neg fun hcc => hx (WithBot.coe_lt_coe.mp hcc), if_neg hx]
      · show (if (v.y : WithTop ℚ) < c.y_min then (v.y : WithTop ℚ) else c.y_min) =
          ((if v.y < b.ymin then v.y else b.ymin : ℚ) : WithTop ℚ)
        rw [h3]
        by_cases hy : v.y < b.ymin
        · rw [if_pos (WithTop.coe_lt_coe.mpr hy), if_pos hy]
        · rw [if_neg fun hcc => hy (WithTop.coe_lt_coe.mp hcc), if_neg hy]
      · show (if c.y_max < (v.y : WithBot ℚ) then (v.y : WithBot ℚ) else c.y_max) =
          ((if b.ymax < v.y then v.y else b.ymax : ℚ) : WithBot ℚ)
        rw [h4]
        by_cases hy : b.ymax < v.y
        · rw [if_pos (WithBot.coe_lt_coe.mpr hy), if_pos hy]
        · rw [if_neg fun hcc => hy (WithBot.coe_lt_coe.mp hcc), if_neg hy]
      · show c.count + 1 = b.count + 1
        rw [h5]

/-- The two accumulation folds keep every band slot related. -/
theorem accum_rel (zmin bandh : ℚ) (n : ℕ) (vs : List Pt) :
    ∀ (a : List (Option BandL)) (c : List BandC),
      a.length = n → c.length = n →
      (∀ j, j < n → bandRel (a.getD j none) (c.getD j BandC.init)) →
      (vs.foldl (fun bands v =>
          let idx := Autorig.bandIndex zmin bandh n v.z
          bands.set idx (Autorig.updateBandL (bands.getD idx none) v)) a).length = n
      ∧ (vs.foldl (accumStep zmin bandh n) c).length = n
      ∧ ∀ j, j < n →
          bandRel ((vs.foldl (fun bands v =>
              let idx := Autorig.bandIndex zmin bandh n v.z
              bands.set idx (Autorig.updateBandL (bands.getD idx none) v)) a).getD j none)
            ((vs.foldl (accumStep zmin bandh n) c).getD j BandC.init) := by
  induction vs with
  | nil => intro a c ha hc hrel; exact ⟨ha, hc, hrel⟩
  | cons u t ih =>
      intro a c ha hc hrel
      rw [List.foldl_cons, List.foldl_cons]
      apply ih
      · simp [List.length_set, ha]
      · simp [accumStep, List.length_set, hc]
      · intro j hj
        simp only [accumStep]
        by_cases hji : j = Autorig.bandIndex zmin bandh n u.z
        · rw [hji,
            Autorig.getD_set_self _ _ _ _ (by rw [ha, ← hji]; exact hj),
            Autorig.getD_set_self _ _ _ _ (by rw [hc, ← hji]; exact hj)]
          exact bandRel_update _ _ u (hrel _ (hji ▸ hj))
        · rw [Autorig.getD_set_ne _ _ _ _ _ fun e => hji e.symm,
            Autorig.getD_set_ne _ _ _ _ _ fun e => hji e.symm]
          exact hrel j hj

/-- **C9.** Given the same vertex list, `z_min`, band height and band
count, the list-based accumulation of blender-autorig.py and the
class-based accumulation of compute-mixamo-markers.py agree: a band is
unpopulated in one exactly when it is pristine in the other, and a
populated band carries identical `(x_min, x_max, y_min, y_max, count)`. -/
theorem claim9_band_accumulation_equivalence (verts : List Pt) (zmin bandh : ℚ)
    (n : ℕ) (hb : bandh ≠ 0) (i : ℕ) (hi : i < n) :
    ∃ cbands, accumBands? verts zmin bandh n = some cbands ∧
      (((Autorig.accumBandsA verts zmin bandh n).getD i none = none ↔
        (cbands.getD i BandC.init).count = 0)
      ∧ ∀ b, (Autorig.accumBandsA verts zmin bandh n).getD i none = some b →
          cbands.getD i BandC.init =
            { x_min := (b.xmin : WithTop ℚ), x_max := (b.xmax : WithBot ℚ),
              y_min := (b.ymin : WithTop ℚ), y_max := (b.ymax : WithBot ℚ),
              count := b.count }) := by
  refine ⟨_, accumBands?_eq_foldl verts zmin bandh n hb, ?_, ?_⟩
  all_goals
    have base : ∀ j, j < n →
        bandRel ((List.replicate n (none : Option BandL)).getD j none)
          ((List.replicate n BandC.init).getD j BandC.init) := by
      intro j _
      rw [Autorig.getD_replicate, Autorig.getD_replicate]
      rfl
    obtain ⟨-, -, hrel⟩ := accum_rel zmin bandh n verts _ _
      (List.length_replicate n _) (List.length_replicate n _) base
    have h : bandRel ((Autorig.accumBandsA verts zmin bandh n).getD i none)
        ((verts.foldl (accumStep zmin bandh n)
          (List.replicate n BandC.init)).getD i BandC.init) := hrel i hi
  · cases hA : (Autorig.accumBandsA verts zmin bandh n).getD i none with
    | none =>
        rw [hA] at h
        have hc : _ = BandC.init := h
        rw [hc]
        exact ⟨fun _ => rfl, fun _ => rfl⟩
    | some b =>
        rw [hA] at h
        obtain ⟨-, -, -, -, hcnt, hpos⟩ := h
        constructor
        · intro he; exact absurd he (by simp)
        · intro he; rw [hcnt] at he; omega
  · intro b hA
    rw [hA] at h
    obtain ⟨h1, h2, h3, h4, h5, -⟩ := h
    rw [← h1, ← h2, ← h3, ← h4, ← h5]

end Markers

namespace Markers

/-- Witness for C9 at a concrete cloud, offset, band height and index. -/
theorem claim9_witness :
    ((1 : ℚ)/2 ≠ 0) ∧ ((0 : ℕ) < 4)
    ∧ ∃ cbands, accumBands? Autorig.smallCloud 3 (1/2) 4 = some cbands ∧
      (((Autorig.accumBandsA Autorig.smallCloud 3 (1/2) 4).getD 0 none = none ↔
        (cbands.getD 0 BandC.init).count = 0)
      ∧ ∀ b, (Autorig.accumBandsA Autorig.smallCloud 3 (1/2) 4).getD 0 none = some b →
          cbands.getD 0 BandC.init =
            { x_min := (b.xmin : WithTop ℚ), x_max := (b.xmax : WithBot ℚ),
              y_min := (b.ymin : WithTop ℚ), y_max := (b.ymax : WithBot ℚ),
              count := b.count }) :=
  ⟨by norm_num, by norm_num,
   claim9_band_accumulation_equivalence Autorig.smallCloud 3 (1/2) 4 (by norm_num) 0
     (by norm_num)⟩

end Markers

namespace Autorig

/-- **C8 (counterexample).** With model height `H = 1/2` and a
zero-length head bone, the added stub has height
`max(0.03*H, 0.03) = 0.03`, not the claimed `0.03*H = 0.015`. -/
theorem claim8_counterexample :
    ensure_required_end_bones (1/2) headOnlySkeleton =
      headOnlySkeleton ++
        [⟨"mixamorig:HeadTop_End", ⟨0, 0, 0⟩, ⟨0, 0, 3/100⟩, some "mixamorig:Head"⟩]
    ∧ ((3 : ℝ)/100 ≠ 3/100 * (1/2)) := by
  constructor
  · unfold ensure_required_end_bones
    rw [if_neg (by decide), if_neg (by decide)]
    rw [show headOnlySkeleton.find? (fun b => b.name == "mixamorig:Head") =
        some (⟨"mixamorig:Head", ⟨0, 0, 0⟩, ⟨0, 0, 0⟩, none⟩ : Bone) from rfl]
    simp only []
    have hz : (((⟨"mixamorig:Head", ⟨0, 0, 0⟩, ⟨0, 0, 0⟩, none⟩ : Bone)).tail -
        ((⟨"mixamorig:Head", ⟨0, 0, 0⟩, ⟨0, 0, 0⟩, none⟩ : Bone)).head).length < 1e-6 := by
      norm_num [Vec3.length, Vec3.lengthSq, Vec3.sub_def, Real.sqrt_zero]
    rw [if_pos hz]
    simp only [headOnlySkeleton, Vec3.add_def, List.cons_append, List.nil_append,
      List.cons.injEq, Bone.mk.injEq, Vec3.mk.injEq]
    norm_num
  · norm_num

/-- **C8 (amended).** When the completion pass adds the missing
`mixamorig:HeadTop_End` and the head bone has negligible length
(below 1e-6), the added bone is a vertical stub of height
`max(0.03*H, 0.03)` — `0.03*H` floored at the constant `0.03`. -/
theorem claim8_stub_height (H : ℝ) (bones : List Bone) (hb : Bone)
    (h1 : "mixamorig:HeadTop_End" ∉ bones.map Bone.name)
    (h2 : bones.find? (fun b => b.name == "mixamorig:Head") = some hb)
    (h3 : (hb.tail - hb.head).length < 1e-6) :
    ensure_required_end_bones H bones =
      bones ++ [⟨"mixamorig:HeadTop_End", hb.tail,
        hb.tail + (⟨0, 0, max (H * 0.03) 0.03⟩ : Vec3), some "mixamorig:Head"⟩] := by
  have hmem : "mixamorig:Head" ∈ bones.map Bone.name := by
    have hp := List.find?_some h2
    have hm := List.mem_of_find?_eq_some h2
    exact List.mem_map.mpr ⟨hb, hm, by simpa using hp⟩
  unfold ensure_required_end_bones
  rw [if_neg h1, if_neg (not_not_intro hmem), h2]
  simp only []
  rw [if_pos h3]

/-- Witness for C8 at the concrete one-bone skeleton with `H = 2`. -/
theorem claim8_witness :
    ("mixamorig:HeadTop_End" ∉ headOnlySkeleton.map Bone.name)
    ∧ headOnlySkeleton.find? (fun b => b.name == "mixamorig:Head") =
        some (⟨"mixamorig:Head", ⟨0, 0, 0⟩, ⟨0, 0, 0⟩, none⟩ : Bone)
    ∧ (((⟨"mixamorig:Head", ⟨0, 0, 0⟩, ⟨0, 0, 0⟩, none⟩ : Bone).tail -
        (⟨"mixamorig:Head", ⟨0, 0, 0⟩, ⟨0, 0, 0⟩, none⟩ : Bone).head).length < 1e-6)
    ∧ ensure_required_end_bones 2 headOnlySkeleton =
        headOnlySkeleton ++
          [⟨"mixamorig:HeadTop_End", (⟨"mixamorig:Head", ⟨0, 0, 0⟩, ⟨0, 0, 0⟩, none⟩ : Bone).tail,
            (⟨"mixamorig:Head", ⟨0, 0, 0⟩, ⟨0, 0, 0⟩, none⟩ : Bone).tail +
              (⟨0, 0, max ((2 : ℝ) * 0.03) 0.03⟩ : Vec3),
            some "mixamorig:Head"⟩] := by
  have h3 : (((⟨"mixamorig:Head", ⟨0, 0, 0⟩, ⟨0, 0, 0⟩, none⟩ : Bone).tail -
      (⟨"mixamorig:Head", ⟨0, 0, 0⟩, ⟨0, 0, 0⟩, none⟩ : Bone).head).length < 1e-6) := by
    norm_num [Vec3.length, Vec3.lengthSq, Vec3.sub_def, Real.sqrt_zero]
  exact ⟨by decide, rfl, h3, claim8_stub_height 2 headOnlySkeleton _ (by decide) rfl h3⟩

end Autorig


namespace Autorig

/-- Splitting a weight sum along a filter. -/
theorem wsum_filter_split (l : List (String × ℝ)) (p : (String × ℝ) → Bool) :
    ((l.filter p).map Prod.snd).sum + ((l.filter fun x => !(p x)).map Prod.snd).sum =
      (l.map Prod.snd).sum := by
  induction l with
  | nil => simp
  | cons a t ih =>
      by_cases hp : p a
      · simp [List.filter_cons, hp]
        linarith [ih]
      · simp [List.filter_cons, hp]
        linarith [ih]

/-- Normalizing every entry divides the weight sum. -/
theorem wsum_map_div (l : List (String × ℝ)) (c : ℝ) :
    ((l.map fun p => (p.1, p.2 / c)).map Prod.snd).sum = (l.map Prod.snd).sum / c := by
  induction l with
  | nil => simp
  | cons a t ih =>
      simp only [List.map_cons, List.sum_cons]
      rw [ih, add_div]

/-- Every candidate the gating loop keeps has a strictly positive gate
(zero-gated bones are skipped at line 856, and both the masks-off path and
the all-masked fallback use gate 1). -/
theorem candidateList_gate_pos (useMasks : Bool) (bone_names : List String)
    (dist gate : String → ℝ) :
    ∀ c ∈ candidateList useMasks bone_names dist gate, 0 < c.gate := by
  intro c hc
  simp only [candidateList] at hc
  by_cases hemp : (bone_names.filterMap fun bname =>
      if useMasks then
        if gate bname ≤ 0 then none else some (⟨bname, dist bname, gate bname⟩ : Cand)
      else some ⟨bname, dist bname, 1⟩).isEmpty = true
  · rw [if_pos hemp] at hc
    obtain ⟨b, -, rfl⟩ := List.mem_map.mp hc
    exact one_pos
  · rw [if_neg hemp] at hc
    obtain ⟨b, -, hfb⟩ := List.mem_filterMap.mp hc
    cases useMasks with
    | false =>
        rw [if_neg (by simp)] at hfb
        rw [Option.some.injEq] at hfb
        subst hfb
        exact one_pos
    | true =>
        rw [if_pos rfl] at hfb
        split at hfb
        · exact absurd hfb (by simp)
        · rename_i hg
          rw [Option.some.injEq] at hfb
          subst hfb
          exact lt_of_not_le hg

/-- The candidate list is nonempty whenever the bone scope is. -/
theorem candidateList_ne_nil (useMasks : Bool) (bone_names : List String)
    (dist gate : String → ℝ) (hbn : bone_names ≠ []) :
    candidateList useMasks bone_names dist gate ≠ [] := by
  simp only [candidateList]
  by_cases hemp : (bone_names.filterMap fun bname =>
      if useMasks then
        if gate bname ≤ 0 then none else some (⟨bname, dist bname, gate bname⟩ : Cand)
      else some ⟨bname, dist bname, 1⟩).isEmpty = true
  · rw [if_pos hemp]
    intro h
    exact hbn (List.map_eq_nil_iff.mp h)
  · rw [if_neg hemp]
    intro h
    exact hemp (by rw [h]; rfl)

/-- The kept top slice is nonempty whenever the bone scope is
(`max(1, ...)` keeps at least one candidate). -/
theorem topCandidates_length_pos (WP : WeightParams) (bone_names : List String)
    (dist gate : String → ℝ) (hbn : bone_names ≠ []) :
    0 < (topCandidates WP bone_names dist gate).length := by
  unfold topCandidates
  rw [List.length_take, (List.perm_insertionSort candLe _).length_eq]
  have h1 : 0 < (candidateList WP.distance_use_anatomy_masks bone_names dist gate).length :=
    List.length_pos.mpr (candidateList_ne_nil _ _ _ _ hbn)
  omega

/-- The kept top slice respects `weight_top_n`. -/
theorem topCandidates_length_le (WP : WeightParams) (bone_names : List String)
    (dist gate : String → ℝ) (htop1 : 1 ≤ WP.weight_top_n) :
    (topCandidates WP bone_names dist gate).length ≤ WP.weight_top_n := by
  unfold topCandidates
  rw [List.length_take]
  omega

/-- Kept candidates come from the candidate list. -/
theorem topCandidates_subset (WP : WeightParams) (bone_names : List String)
    (dist gate : String → ℝ) :
    ∀ c ∈ topCandidates WP bone_names dist gate,
      c ∈ candidateList WP.distance_use_anatomy_masks bone_names dist gate := by
  intro c hc
  unfold topCandidates at hc
  exact (List.perm_insertionSort candLe _).mem_iff.mp (List.take_subset _ _ hc)

/-- The kept top slice is sorted by distance. -/
theorem topCandidates_sorted (WP : WeightParams) (bone_names : List String)
    (dist gate : String → ℝ) :
    List.Sorted candLe (topCandidates WP bone_names dist gate) := by
  unfold topCandidates
  exact (List.sorted_insertionSort candLe _).sublist (List.take_sublist _ _)

/-- Raw weights of kept candidates are strictly positive. -/
theorem rawWeight_pos (falloff min_dist : ℝ) (c : Cand) (hg : 0 < c.gate) :
    0 < rawWeight falloff min_dist c :=
  mul_pos (Real.exp_pos _) hg

end Autorig

namespace Autorig

/-- Spec of the normalize-then-threshold stage (lines 877-889, non-fallback
branch): at most as many entries as raw weights, all positive, and the
stored mass is the unit mass minus the sub-threshold normalized weights,
each of which is at most `min_weight` and of which there are at most 8. -/
theorem normalize_filter_spec (raws : List (String × ℝ)) (minw total : ℝ)
    (htotal : total = (raws.map Prod.snd).sum)
    (hpos : ∀ q ∈ raws, 0 < q.2) (hlen : raws.length ≤ 8) (hmw0 : 0 ≤ minw)
    (htot : (1e-9 : ℝ) ≤ total) :
    ((raws.map fun p => (p.1, p.2 / total)).filter fun p => minw < p.2).length ≤ 8
    ∧ (∀ p ∈ (raws.map fun p => (p.1, p.2 / total)).filter fun p => minw < p.2, 0 < p.2)
    ∧ 1 - 8 * minw ≤
        (((raws.map fun p => (p.1, p.2 / total)).filter fun p => minw < p.2).map Prod.snd).sum
    ∧ (((raws.map fun p => (p.1, p.2 / total)).filter fun p => minw < p.2).map Prod.snd).sum ≤ 1 := by
  have htotpos : 0 < total := lt_of_lt_of_le (by norm_num) htot
  have hNlen : (raws.map fun p => (p.1, p.2 / total)).length ≤ 8 := by
    rw [List.length_map]
    exact hlen
  have hNpos : ∀ p ∈ raws.map fun p => (p.1, p.2 / total), 0 < p.2 := by
    intro p hp
    obtain ⟨q, hq, rfl⟩ := List.mem_map.mp hp
    exact div_pos (hpos q hq) htotpos
  have hNsum : ((raws.map fun p => (p.1, p.2 / total)).map Prod.snd).sum = 1 := by
    rw [wsum_map_div, ← htotal]
    exact div_self (ne_of_gt htotpos)
  have hsplit := wsum_filter_split (raws.map fun p => (p.1, p.2 / total))
    (fun p => decide (minw < p.2))
  have hdrop_pos : ∀ x ∈ ((raws.map fun p => (p.1, p.2 / total)).filter
      fun x => !(decide (minw < x.2))).map Prod.snd, 0 ≤ x := by
    intro x hx
    obtain ⟨q, hq, rfl⟩ := List.mem_map.mp hx
    exact le_of_lt (hNpos q (List.mem_of_mem_filter hq))
  have hdrop_le : ∀ x ∈ ((raws.map fun p => (p.1, p.2 / total)).filter
      fun x => !(decide (minw < x.2))).map Prod.snd, x ≤ minw := by
    intro x hx
    obtain ⟨q, hq, rfl⟩ := List.mem_map.mp hx
    have := List.of_mem_filter hq
    simp only [Bool.not_eq_true', decide_eq_false_iff_not] at this
    exact not_lt.mp this
  have hdrop_sum_le : (((raws.map fun p => (p.1, p.2 / total)).filter
      fun x => !(decide (minw < x.2))).map Prod.snd).sum ≤ 8 * minw := by
    refine le_trans (List.sum_le_card_nsmul _ minw hdrop_le) ?_
    rw [List.length_map, nsmul_eq_mul]
    have hle8 : (((raws.map fun p => (p.1, p.2 / total)).filter
        fun x => !(decide (minw < x.2))).length : ℝ) ≤ 8 := by
      have h1 := List.length_filter_le (fun x => !(decide (minw < x.2)))
        (raws.map fun p => (p.1, p.2 / total))
      have := le_trans h1 hNlen
      exact_mod_cast this
    exact mul_le_mul_of_nonneg_right hle8 hmw0
  have hdrop_sum_nonneg : 0 ≤ (((raws.map fun p => (p.1, p.2 / total)).filter
      fun x => !(decide (minw < x.2))).map Prod.snd).sum :=
    List.sum_nonneg hdrop_pos
  refine ⟨?_, ?_, ?_, ?_⟩
  · exact le_trans (List.length_filter_le _ _) hNlen
  · intro p hp
    exact hNpos p (List.mem_of_mem_filter hp)
  · rw [hNsum] at hsplit
    linarith
  · rw [hNsum] at hsplit
    linarith

end Autorig

namespace Autorig

/-- Per-vertex guarantee of the distance-weight assignment (lines 846-889):
the stored table exists (notably the loop body is total for a nonempty bone
scope), holds at most 8 entries, all strictly positive, and its mass lies in
`[1 - 8*min_weight, 1]`. -/
theorem vertexWeights_spec (WP : WeightParams) (bone_names : List String)
    (dist gate : String → ℝ) (hbn : bone_names ≠ [])
    (htop1 : 1 ≤ WP.weight_top_n) (htop8 : WP.weight_top_n ≤ 8)
    (hmw0 : 0 ≤ WP.min_weight) :
    ∃ ws, vertexWeights WP bone_names dist gate = some ws ∧
      ws.length ≤ 8 ∧ (∀ p ∈ ws, 0 < p.2) ∧
      1 - 8 * WP.min_weight ≤ (ws.map Prod.snd).sum ∧ (ws.map Prod.snd).sum ≤ 1 := by
  cases htops : topCandidates WP bone_names dist gate with
  | nil =>
      have hlp := topCandidates_length_pos WP bone_names dist gate hbn
      rw [htops] at hlp
      simp at hlp
  | cons t ts =>
      have hgate : ∀ c ∈ t :: ts, 0 < c.gate := by
        intro c hcc
        refine candidateList_gate_pos _ _ _ _ c (topCandidates_subset WP bone_names dist gate c ?_)
        rw [htops]
        exact hcc
      have hlen8 : (t :: ts).length ≤ 8 := by
        rw [← htops]
        exact le_trans (topCandidates_length_le WP bone_names dist gate htop1) htop8
      have hraw_pos : ∀ q ∈ (t :: ts).map fun c =>
          (c.bone, rawWeight WP.weight_falloff (max t.dist 0.001) c), 0 < q.2 := by
        intro q hq
        obtain ⟨c, hc, rfl⟩ := List.mem_map.mp hq
        exact rawWeight_pos _ _ c (hgate c hc)
      have hraw_len : ((t :: ts).map fun c =>
          (c.bone, rawWeight WP.weight_falloff (max t.dist 0.001) c)).length ≤ 8 := by
        rw [List.length_map]
        exact hlen8
      by_cases hsmall : (((t :: ts).map fun c =>
          (c.bone, rawWeight WP.weight_falloff (max t.dist 0.001) c)).map Prod.snd).sum < 1e-9
      · refine ⟨[(t.bone, 1)], ?_, by norm_num, ?_, ?_, ?_⟩
        · unfold vertexWeights
          rw [htops]
          simp only []
          rw [if_pos hsmall]
        · intro p hp
          rw [List.mem_singleton] at hp
          rw [hp]
          exact one_pos
        · simp only [List.map_singleton, List.sum_singleton]
          linarith
        · simp only [List.map_singleton, List.sum_singleton]
          exact le_refl 1
      · obtain ⟨hl, hp, hlo, hhi⟩ := normalize_filter_spec
          ((t :: ts).map fun c => (c.bone, rawWeight WP.weight_falloff (max t.dist 0.001) c))
          WP.min_weight
          ((((t :: ts).map fun c =>
            (c.bone, rawWeight WP.weight_falloff (max t.dist 0.001) c)).map Prod.snd).sum)
          rfl hraw_pos hraw_len hmw0 (not_lt.mp hsmall)
        refine ⟨_, ?_, hl, hp, hlo, hhi⟩
        unfold vertexWeights
        rw [htops]
        simp only []
        rw [if_neg hsmall]

end Autorig

namespace Autorig

/-- Spec of `clamp_vertex_influences` (lines 802-825) on an all-positive
weight table of at most 8 entries carrying at least 1/5 of mass: the result
stays positive and nonempty, respects the cap, and either keeps the incoming
mass (no-clamp path) or renormalizes to exactly 1; in particular the
`total < 1e-9` skip branch is unreachable. -/
theorem clamp_spec (max_influences : ℕ) (ws : List (String × ℝ))
    (hmi : 1 ≤ max_influences) (hlen : ws.length ≤ 8)
    (hpos : ∀ p ∈ ws, 0 < p.2) (hlo : 1/5 ≤ (ws.map Prod.snd).sum) :
    (∀ p ∈ clamp_vertex_influences max_influences ws, 0 < p.2)
    ∧ (clamp_vertex_influences max_influences ws).length ≤ max_influences
    ∧ (((clamp_vertex_influences max_influences ws).map Prod.snd).sum = (ws.map Prod.snd).sum
        ∨ ((clamp_vertex_influences max_influences ws).map Prod.snd).sum = 1)
    ∧ clamp_vertex_influences max_influences ws ≠ [] := by
  have hwsne : ws ≠ [] := by
    intro h
    rw [h] at hlo
    norm_num at hlo
  unfold clamp_vertex_influences
  rw [if_neg (by omega)]
  have hfil : (ws.filter fun p => decide (0 < p.2)) = ws :=
    List.filter_eq_self.mpr fun a ha => decide_eq_true (hpos a ha)
  rw [hfil]
  by_cases hle : ws.length ≤ max_influences
  · rw [if_pos hle]
    exact ⟨hpos, hle, Or.inl rfl, hwsne⟩
  · rw [if_neg hle]
    obtain ⟨m, rfl⟩ : ∃ m, max_influences = m + 1 := ⟨max_influences - 1, by omega⟩
    have hperm := List.perm_insertionSort weightGe ws
    have hsort := List.sorted_insertionSort weightGe ws
    cases hsrt : List.insertionSort weightGe ws with
    | nil =>
        rw [hsrt] at hperm
        exact absurd hperm.symm.eq_nil hwsne
    | cons h rest =>
        rw [hsrt] at hperm hsort
        have hmem : ∀ q ∈ h :: rest, q ∈ ws := fun q hq => hperm.mem_iff.mp hq
        have hrel := List.rel_of_sorted_cons hsort
        have hsum_eq : ((h :: rest).map Prod.snd).sum = (ws.map Prod.snd).sum :=
          (hperm.map Prod.snd).sum_eq
        have hbound : ∀ x ∈ (h :: rest).map Prod.snd, x ≤ h.2 := by
          intro x hx
          obtain ⟨q, hq, rfl⟩ := List.mem_map.mp hx
          rcases List.mem_cons.mp hq with rfl | hq'
          · exact le_refl _
          · exact hrel q hq'
        have hsum_le : ((h :: rest).map Prod.snd).sum ≤ ((h :: rest).length : ℝ) * h.2 := by
          have := List.sum_le_card_nsmul ((h :: rest).map Prod.snd) h.2 hbound
          rwa [List.length_map, nsmul_eq_mul] at this
        have hlen_s : (h :: rest).length = ws.length := hperm.length_eq
        have hpos_h : 0 < h.2 := hpos h (hmem h (List.mem_cons_self h rest))
        have hh2 : 1/40 ≤ h.2 := by
          have h8 : ((h :: rest).length : ℝ) ≤ 8 := by
            rw [hlen_s]
            exact_mod_cast hlen
          have hmul : ((h :: rest).length : ℝ) * h.2 ≤ 8 * h.2 :=
            mul_le_mul_of_nonneg_right h8 (le_of_lt hpos_h)
          linarith
        rw [List.take_succ_cons]
        have htake_nonneg : 0 ≤ ((rest.take m).map Prod.snd).sum := by
          refine List.sum_nonneg ?_
          intro x hx
          obtain ⟨q, hq, rfl⟩ := List.mem_map.mp hx
          exact le_of_lt (hpos q (hmem q (List.mem_cons_of_mem h (List.mem_of_mem_take hq))))
        have htot : 1/40 ≤ ((h :: rest.take m).map Prod.snd).sum := by
          simp only [List.map_cons, List.sum_cons]
          linarith
        rw [if_neg (not_lt.mpr (le_trans (by norm_num) htot))]
        have hkpos : ∀ p ∈ (h :: rest.take m).map
            (fun p => (p.1, p.2 / ((h :: rest.take m).map Prod.snd).sum)), 0 < p.2 := by
          intro p hp
          obtain ⟨q, hq, rfl⟩ := List.mem_map.mp hp
          have hqpos : 0 < q.2 := by
            rcases List.mem_cons.mp hq with rfl | hq'
            · exact hpos_h
            · exact hpos q (hmem q (List.mem_cons_of_mem h (List.mem_of_mem_take hq')))
          exact div_pos hqpos (lt_of_lt_of_le (by norm_num) htot)
        refine ⟨hkpos, ?_, Or.inr ?_, by simp⟩
        · rw [List.length_map, List.length_cons, List.length_take]
          omega
        · rw [wsum_map_div]
          exact div_self (ne_of_gt (lt_of_lt_of_le (by norm_num) htot))

end Autorig

namespace Autorig

/-- **C1 (amended).** After distance-based weight assignment followed by the
influence-cap pass, every vertex's nonzero bone weights number at most
`max_influences`, and their sum lies in `[1 - 8*min_weight_threshold, 1]`:
it equals 1 when the cap renormalizes or when no normalized weight fell
below the threshold, but each discarded sub-threshold weight lowers it, so
"within 1e-6 of 1.0" does not hold in general (see the counterexample). -/
theorem claim1_weight_sum_and_cap (AP : AnatomyParams) (WP : WeightParams)
    (max_influences : ℕ) (bone_names : List String) (bonePos : String → Vec3 × Vec3)
    (CX BZ H : ℝ) (co_world : Vec3)
    (hbn : bone_names ≠ []) (htop1 : 1 ≤ WP.weight_top_n) (htop8 : WP.weight_top_n ≤ 8)
    (hmw0 : 0 ≤ WP.min_weight) (hmw : WP.min_weight ≤ 1/10) (hmi : 1 ≤ max_influences) :
    ∃ ws, skinVertex AP WP bone_names bonePos CX BZ H co_world = some ws ∧
      (clamp_vertex_influences max_influences ws).length ≤ max_influences
      ∧ (∀ p ∈ clamp_vertex_influences max_influences ws, 0 < p.2)
      ∧ 1 - 8 * WP.min_weight ≤ ((clamp_vertex_influences max_influences ws).map Prod.snd).sum
      ∧ ((clamp_vertex_influences max_influences ws).map Prod.snd).sum ≤ 1 := by
  obtain ⟨ws, hws, hlen, hpos, hlo, hhi⟩ := vertexWeights_spec WP bone_names
    (distance_to_bone bonePos co_world)
    (fun bname => anatomy_gate AP bname ((co_world.x - CX) / max H 1e-6)
      ((co_world.z - BZ) / max H 1e-6)) hbn htop1 htop8 hmw0
  obtain ⟨cpos, clen, csum, -⟩ := clamp_spec max_influences ws hmi hlen hpos
    (le_trans (by linarith) hlo)
  refine ⟨ws, ?_, clen, cpos, ?_, ?_⟩
  · unfold skinVertex
    exact hws
  · rcases csum with e | e
    · rw [e]; exact hlo
    · rw [e]; linarith
  · rcases csum with e | e
    · rw [e]; exact hhi
    · rw [e]

/-- Witness for C1 at a concrete two-bone scope, default parameters. -/
theorem claim1_witness :
    ((["A", "B"] : List String) ≠ [])
    ∧ (1 ≤ defaultWeightParams.weight_top_n) ∧ (defaultWeightParams.weight_top_n ≤ 8)
    ∧ (0 ≤ defaultWeightParams.min_weight) ∧ (defaultWeightParams.min_weight ≤ 1/10)
    ∧ ((1 : ℕ) ≤ 4)
    ∧ ∃ ws, skinVertex defaultAnatomyParams defaultWeightParams ["A", "B"] cexBonePos
        0 0 2 originV = some ws ∧
      (clamp_vertex_influences 4 ws).length ≤ 4
      ∧ (∀ p ∈ clamp_vertex_influences 4 ws, 0 < p.2)
      ∧ 1 - 8 * defaultWeightParams.min_weight ≤
          ((clamp_vertex_influences 4 ws).map Prod.snd).sum
      ∧ ((clamp_vertex_influences 4 ws).map Prod.snd).sum ≤ 1 :=
  ⟨by decide, by decide, by decide, by norm_num [defaultWeightParams],
   by norm_num [defaultWeightParams], by norm_num,
   claim1_weight_sum_and_cap defaultAnatomyParams defaultWeightParams 4 ["A", "B"]
     cexBonePos 0 0 2 originV (by decide) (by decide) (by decide)
     (by norm_num [defaultWeightParams]) (by norm_num [defaultWeightParams]) (by norm_num)⟩

/-- **C2.** Every vertex processed by the distance-based algorithm ends with
at least one strictly positive bone weight — before and after the influence
cap; the statement quantifies over arbitrary gate values (covering the case
where every anatomy gate is 0), and separately: when every gate in the
scope is ≤ 0, the candidate list is rebuilt as the ungated distances over
the same bone scope, exactly the fallback of lines 861-866 (the zero-sum
fallback of lines 877-882 stores full weight 1.0 on the nearest candidate
by construction). -/
theorem claim2_every_vertex_weighted (AP : AnatomyParams) (WP : WeightParams)
    (max_influences : ℕ) (bone_names : List String) (bonePos : String → Vec3 × Vec3)
    (CX BZ H : ℝ) (co_world : Vec3)
    (hbn : bone_names ≠ []) (htop1 : 1 ≤ WP.weight_top_n) (htop8 : WP.weight_top_n ≤ 8)
    (hmw0 : 0 ≤ WP.min_weight) (hmw : WP.min_weight ≤ 1/10) (hmi : 1 ≤ max_influences) :
    (∃ ws, skinVertex AP WP bone_names bonePos CX BZ H co_world = some ws ∧
      ws ≠ [] ∧ (∀ p ∈ ws, 0 < p.2)
      ∧ clamp_vertex_influences max_influences ws ≠ []
      ∧ ∀ p ∈ clamp_vertex_influences max_influences ws, 0 < p.2)
    ∧ ∀ (dist gate : String → ℝ), (∀ b ∈ bone_names, gate b ≤ 0) →
        candidateList true bone_names dist gate =
          bone_names.map fun bname => (⟨bname, dist bname, 1⟩ : Cand) := by
  constructor
  · obtain ⟨ws, hws, hlen, hpos, hlo, hhi⟩ := vertexWeights_spec WP bone_names
      (distance_to_bone bonePos co_world)
      (fun bname => anatomy_gate AP bname ((co_world.x - CX) / max H 1e-6)
        ((co_world.z - BZ) / max H 1e-6)) hbn htop1 htop8 hmw0
    obtain ⟨cpos, -, -, cne⟩ := clamp_spec max_influences ws hmi hlen hpos
      (le_trans (by linarith) hlo)
    refine ⟨ws, ?_, ?_, hpos, cne, cpos⟩
    · unfold skinVertex
      exact hws
    · intro h
      rw [h] at hlo
      simp at hlo
      linarith
  · intro dist gate hg
    unfold candidateList
    have hnil : (bone_names.filterMap fun bname =>
        if true = true then
          if gate bname ≤ 0 then none
          else some (⟨bname, dist bname, gate bname⟩ : Cand)
        else some ⟨bname, dist bname, 1⟩) = [] := by
      refine List.filterMap_eq_nil_iff.mpr ?_
      intro b hb
      rw [if_pos rfl, if_pos (hg b hb)]
    rw [hnil]
    rfl

/-- Witness for C2 at a concrete two-bone scope, default parameters. -/
theorem claim2_witness :
    ((["A", "B"] : List String) ≠ [])
    ∧ ((∃ ws, skinVertex defaultAnatomyParams defaultWeightParams ["A", "B"] cexBonePos
        0 0 2 originV = some ws ∧
      ws ≠ [] ∧ (∀ p ∈ ws, 0 < p.2)
      ∧ clamp_vertex_influences 4 ws ≠ []
      ∧ ∀ p ∈ clamp_vertex_influences 4 ws, 0 < p.2)
    ∧ ∀ (dist gate : String → ℝ), (∀ b ∈ (["A", "B"] : List String), gate b ≤ 0) →
        candidateList true ["A", "B"] dist gate =
          (["A", "B"] : List String).map fun bname => (⟨bname, dist bname, 1⟩ : Cand)) :=
  ⟨by decide,
   claim2_every_vertex_weighted defaultAnatomyParams defaultWeightParams 4 ["A", "B"]
     cexBonePos 0 0 2 originV (by decide) (by decide) (by decide)
     (by norm_num [defaultWeightParams]) (by norm_num [defaultWeightParams]) (by norm_num)⟩

end Autorig

namespace Autorig

/-- **C4 (amended).** For every vertex, the raw weight of each kept bone is
`exp(-((d / max(d_min, 0.001) - 1)^2) * falloff) * gate`, where `d_min` is
the distance of the head of the sorted kept set — the smallest distance
among the kept bones; the exponential kernel factor is exactly 1.0 for the
nearest kept bone whenever `d_min ≥ 0.001`, but the clamped denominator
makes it smaller than 1 when `d_min < 0.001` (see the counterexample),
so "regardless of how small d_min is" fails. -/
theorem claim4_raw_weight_formula (WP : WeightParams) (bone_names : List String)
    (dist gate : String → ℝ) (hbn : bone_names ≠ []) :
    ∃ t ts, topCandidates WP bone_names dist gate = t :: ts
      ∧ (∀ c ∈ t :: ts, t.dist ≤ c.dist)
      ∧ (∀ c ∈ t :: ts, rawWeight WP.weight_falloff (max t.dist 0.001) c =
          Real.exp (-((c.dist / max t.dist 0.001 - 1) ^ 2) * WP.weight_falloff) * c.gate)
      ∧ (0.001 ≤ t.dist →
          rawWeight WP.weight_falloff (max t.dist 0.001) t = t.gate) := by
  cases htops : topCandidates WP bone_names dist gate with
  | nil =>
      have hlp := topCandidates_length_pos WP bone_names dist gate hbn
      rw [htops] at hlp
      simp at hlp
  | cons t ts =>
      have hsort := topCandidates_sorted WP bone_names dist gate
      rw [htops] at hsort
      refine ⟨t, ts, rfl, ?_, fun c _ => rfl, ?_⟩
      · intro c hc
        rcases List.mem_cons.mp hc with rfl | hc'
        · exact le_refl _
        · exact List.rel_of_sorted_cons hsort c hc'
      · intro hd
        have hne : t.dist ≠ 0 := ne_of_gt (lt_of_lt_of_le (by norm_num) hd)
        rw [rawWeight, max_eq_left hd, div_self hne]
        norm_num [Real.exp_zero]

/-- Witness for C4 at the concrete two-bone configuration. -/
theorem claim4_witness :
    ((["A", "B"] : List String) ≠ [])
    ∧ ∃ t ts, topCandidates defaultWeightParams ["A", "B"]
        (distance_to_bone cexBonePos originV)
        (fun bname => anatomy_gate defaultAnatomyParams bname 0 0) = t :: ts
      ∧ (∀ c ∈ t :: ts, t.dist ≤ c.dist)
      ∧ (∀ c ∈ t :: ts, rawWeight defaultWeightParams.weight_falloff (max t.dist 0.001) c =
          Real.exp (-((c.dist / max t.dist 0.001 - 1) ^ 2) *
            defaultWeightParams.weight_falloff) * c.gate)
      ∧ (0.001 ≤ t.dist →
          rawWeight defaultWeightParams.weight_falloff (max t.dist 0.001) t = t.gate) :=
  ⟨by decide,
   claim4_raw_weight_formula defaultWeightParams ["A", "B"]
     (distance_to_bone cexBonePos originV)
     (fun bname => anatomy_gate defaultAnatomyParams bname 0 0) (by decide)⟩

end Autorig

namespace Autorig

/-- The gate falls through to 1.0 for a bone name outside every anatomical
set (line 766). -/
theorem anatomy_gate_unrecognized (P : AnatomyParams) (bname : String) (xn zn : ℝ)
    (h1 : bname ∉ LEFT_ARM_BONES) (h2 : bname ∉ RIGHT_ARM_BONES)
    (h3 : bname ∉ LEFT_LEG_BONES) (h4 : bname ∉ RIGHT_LEG_BONES)
    (h5 : bname ∉ TORSO_BONES) (h6 : bname ∉ HEAD_BONES) :
    anatomy_gate P bname xn zn = 1 := by
  unfold anatomy_gate
  simp only []
  rw [if_neg h1, if_neg h2, if_neg h3, if_neg h4, if_neg h5, if_neg h6]

/-- Evaluate a `Vec3` length given its squared value. -/
theorem Vec3.length_eval (x y z r : ℝ) (hr : 0 ≤ r) (h : x ^ 2 + y ^ 2 + z ^ 2 = r ^ 2) :
    (⟨x, y, z⟩ : Vec3).length = r := by
  show Real.sqrt (x ^ 2 + y ^ 2 + z ^ 2) = r
  rw [h]
  exact Real.sqrt_sq hr

/-- Distance to a degenerate (point) bone is the distance to that point. -/
theorem distance_to_bone_degenerate (bonePos : String → Vec3 × Vec3) (p : Vec3)
    (b : String) (hseg : (bonePos b).2 = (bonePos b).1) :
    distance_to_bone bonePos p b = (p - (bonePos b).1).length := by
  unfold distance_to_bone closest_point_on_segment
  rw [hseg]
  simp only []
  rw [if_pos ?_]
  have hz : (bonePos b).1 - (bonePos b).1 = (⟨0, 0, 0⟩ : Vec3) := by
    simp [Vec3.sub_def]
  rw [hz]
  norm_num [Vec3.lengthSq]

theorem dist_cex_A : distance_to_bone cexBonePos originV "A" = 1 := by
  have hseg : (cexBonePos "A").2 = (cexBonePos "A").1 := rfl
  rw [distance_to_bone_degenerate cexBonePos originV "A" hseg]
  show ((⟨0, 0, 0⟩ : Vec3) - ⟨1, 0, 0⟩).length = 1
  rw [Vec3.sub_def]
  exact Vec3.length_eval _ _ _ 1 (by norm_num) (by norm_num)

theorem dist_cex_B : distance_to_bone cexBonePos originV "B" = 13/5 := by
  have hseg : (cexBonePos "B").2 = (cexBonePos "B").1 := rfl
  rw [distance_to_bone_degenerate cexBonePos originV "B" hseg]
  show ((⟨0, 0, 0⟩ : Vec3) - ⟨-(13/5), 0, 0⟩).length = 13/5
  rw [Vec3.sub_def]
  exact Vec3.length_eval _ _ _ (13/5) (by norm_num) (by norm_num)

theorem dist_tiny : distance_to_bone tinyBonePos originV "B0" = 1/2000 := by
  have hseg : (tinyBonePos "B0").2 = (tinyBonePos "B0").1 := rfl
  rw [distance_to_bone_degenerate tinyBonePos originV "B0" hseg]
  show ((⟨0, 0, 0⟩ : Vec3) - ⟨1/2000, 0, 0⟩).length = 1/2000
  rw [Vec3.sub_def]
  exact Vec3.length_eval _ _ _ (1/2000) (by norm_num) (by norm_num)

theorem gate_cex_A : anatomy_gate defaultAnatomyParams "A" 0 0 = 1 :=
  anatomy_gate_unrecognized _ _ _ _ (by decide) (by decide) (by decide) (by decide)
    (by decide) (by decide)

theorem gate_cex_B : anatomy_gate defaultAnatomyParams "B" 0 0 = 1 :=
  anatomy_gate_unrecognized _ _ _ _ (by decide) (by decide) (by decide) (by decide)
    (by decide) (by decide)

theorem gate_cex_B0 : anatomy_gate defaultAnatomyParams "B0" 0 0 = 1 :=
  anatomy_gate_unrecognized _ _ _ _ (by decide) (by decide) (by decide) (by decide)
    (by decide) (by decide)

end Autorig

namespace Autorig

theorem cand_tiny :
    candidateList true ["B0"] (distance_to_bone tinyBonePos originV)
      (fun bname => anatomy_gate defaultAnatomyParams bname 0 0) =
      [⟨"B0", 1/2000, 1⟩] := by
  unfold candidateList
  simp only [List.filterMap_cons, List.filterMap_nil]
  rw [gate_cex_B0, dist_tiny]
  norm_num

theorem top_tiny :
    topCandidates defaultWeightParams ["B0"] (distance_to_bone tinyBonePos originV)
      (fun bname => anatomy_gate defaultAnatomyParams bname 0 0) = [⟨"B0", 1/2000, 1⟩] := by
  unfold topCandidates
  simp only []
  rw [show defaultWeightParams.distance_use_anatomy_masks = true from rfl, cand_tiny]
  rfl

/-- **C4 (counterexample).** A vertex at distance 1/2000 < 0.001 from its
nearest (and only) kept bone: the computed raw weight is
`exp(-1/2) ≠ 1`, while the claimed formula — kernel centred at `d_min`
itself — evaluates to `exp(0) * gate = 1`. -/
theorem claim4_counterexample :
    topCandidates defaultWeightParams ["B0"] (distance_to_bone tinyBonePos originV)
      (fun bname => anatomy_gate defaultAnatomyParams bname 0 0) = [⟨"B0", 1/2000, 1⟩]
    ∧ rawWeight defaultWeightParams.weight_falloff (max (1/2000) 0.001) ⟨"B0", 1/2000, 1⟩ =
        Real.exp (-((1 : ℝ)/2))
    ∧ Real.exp (-((((1 : ℝ)/2000) / (1/2000) - 1) ^ 2) *
        defaultWeightParams.weight_falloff) * 1 = 1
    ∧ Real.exp (-((1 : ℝ)/2)) ≠ 1 := by
  refine ⟨top_tiny, ?_, ?_, ?_⟩
  · rw [rawWeight]
    norm_num [defaultWeightParams]
  · norm_num [defaultWeightParams, Real.exp_zero]
  · have hlt : Real.exp (-((1 : ℝ)/2)) < 1 := by
      rw [← Real.exp_zero]
      exact Real.exp_lt_exp.mpr (by norm_num)
    exact ne_of_lt hlt

end Autorig

namespace Autorig

/-- Upper bound on the far bone's raw weight: `exp(-5.12) < 1/99`. -/
theorem exp_cex_ub : Real.exp (-((128 : ℝ)/25)) < 1/99 := by
  have h5 : Real.exp (-((128 : ℝ)/25)) < Real.exp (-5) := Real.exp_lt_exp.mpr (by norm_num)
  have hexp5 : Real.exp 5 = (Real.exp 1) ^ 5 := by
    rw [← Real.exp_nat_mul]
    norm_num
  have h99 : (99 : ℝ) < Real.exp 5 := by
    rw [hexp5]
    calc (99 : ℝ) < 2.7182818283 ^ 5 := by norm_num
    _ < (Real.exp 1) ^ 5 := pow_lt_pow_left₀ Real.exp_one_gt_d9 (by norm_num) (by norm_num)
  have hinv : Real.exp (-5 : ℝ) < 1/99 := by
    rw [Real.exp_neg, show (1 : ℝ)/99 = 99⁻¹ by norm_num]
    exact inv_strictAnti₀ (by norm_num) h99
  linarith

/-- Lower bound on the far bone's raw weight: `1/729 < exp(-5.12)`. -/
theorem exp_cex_lb : (1 : ℝ)/729 < Real.exp (-((128 : ℝ)/25)) := by
  have h6 : Real.exp (-6 : ℝ) < Real.exp (-((128 : ℝ)/25)) := Real.exp_lt_exp.mpr (by norm_num)
  have hexp6 : Real.exp 6 = (Real.exp 1) ^ 6 := by
    rw [← Real.exp_nat_mul]
    norm_num
  have h729 : Real.exp 6 < 729 := by
    rw [hexp6]
    calc (Real.exp 1) ^ 6 < 2.7182818286 ^ 6 :=
        pow_lt_pow_left₀ Real.exp_one_lt_d9 (le_of_lt (Real.exp_pos 1)) (by norm_num)
    _ < 729 := by norm_num
  have hinv : (1 : ℝ)/729 < Real.exp (-6 : ℝ) := by
    rw [Real.exp_neg, show (1 : ℝ)/729 = 729⁻¹ by norm_num]
    exact inv_strictAnti₀ (Real.exp_pos 6) h729
  linarith

theorem cand_cex :
    candidateList true ["A", "B"] (distance_to_bone cexBonePos originV)
      (fun bname => anatomy_gate defaultAnatomyParams bname 0 0) =
      [⟨"A", 1, 1⟩, ⟨"B", 13/5, 1⟩] := by
  unfold candidateList
  simp only [List.filterMap_cons, List.filterMap_nil]
  rw [gate_cex_A, gate_cex_B, dist_cex_A, dist_cex_B]
  norm_num

theorem top_cex :
    topCandidates defaultWeightParams ["A", "B"] (distance_to_bone cexBonePos originV)
      (fun bname => anatomy_gate defaultAnatomyParams bname 0 0) =
      [⟨"A", 1, 1⟩, ⟨"B", 13/5, 1⟩] := by
  unfold topCandidates
  simp only []
  rw [show defaultWeightParams.distance_use_anatomy_masks = true from rfl, cand_cex]
  rw [show List.insertionSort candLe [(⟨"A", 1, 1⟩ : Cand), ⟨"B", 13/5, 1⟩] =
      List.orderedInsert candLe ⟨"A", 1, 1⟩ [⟨"B", 13/5, 1⟩] from rfl]
  rw [List.orderedInsert, if_pos (show candLe ⟨"A", 1, 1⟩ ⟨"B", 13/5, 1⟩ from by
    rw [candLe]
    norm_num)]
  rfl

end Autorig

namespace Autorig

theorem raw_cex_A :
    rawWeight defaultWeightParams.weight_falloff (max (1 : ℝ) 0.001) ⟨"A", 1, 1⟩ = 1 := by
  rw [rawWeight]
  norm_num [defaultWeightParams, Real.exp_zero]

theorem raw_cex_B :
    rawWeight defaultWeightParams.weight_falloff (max (1 : ℝ) 0.001) ⟨"B", 13/5, 1⟩ =
      Real.exp (-(128/25)) := by
  rw [rawWeight]
  norm_num [defaultWeightParams]

theorem vw_cex :
    vertexWeights defaultWeightParams ["A", "B"] (distance_to_bone cexBonePos originV)
      (fun bname => anatomy_gate defaultAnatomyParams bname 0 0) = some cexStoredWeights := by
  have hepos : (0 : ℝ) < Real.exp (-(128/25)) := Real.exp_pos _
  have hT : (0 : ℝ) < 1 + Real.exp (-(128/25)) := by linarith
  have hA : (1 : ℝ)/100 < 1 / (1 + Real.exp (-(128/25))) := by
    rw [div_lt_div_iff₀ (by norm_num) hT]
    nlinarith [exp_cex_ub]
  have hB : ¬((1 : ℝ)/100 < Real.exp (-(128/25)) / (1 + Real.exp (-(128/25)))) := by
    refine not_lt.mpr ?_
    rw [div_le_div_iff₀ hT (by norm_num)]
    nlinarith [exp_cex_ub]
  unfold vertexWeights
  rw [top_cex]
  simp only [List.map_cons, List.map_nil, List.sum_cons, List.sum_nil]
  rw [raw_cex_A, raw_cex_B]
  simp only [add_zero]
  rw [if_neg (not_lt.mpr (show (1e-9 : ℝ) ≤ 1 + Real.exp (-(128/25)) by linarith))]
  simp only [List.map_cons, List.map_nil, List.filter_cons, List.filter_nil,
    decide_eq_true_eq]
  rw [show defaultWeightParams.min_weight = 1/100 from rfl, if_pos hA, if_neg hB]
  rfl

/-- **C1 (counterexample).** With default parameters, a vertex at distance 1
from bone `A` and 2.6 from bone `B` stores only `A`'s weight
`1/(1 + exp(-5.12))` (the far bone's normalized weight `≈ 0.0059` falls
below the 0.01 threshold and is discarded); the influence-cap pass leaves
the single entry untouched, so the stored sum differs from 1.0 by more
than 1e-6. -/
theorem claim1_counterexample :
    skinVertex defaultAnatomyParams defaultWeightParams
      (effectiveBoneNames "core" ["A", "B"]) cexBonePos 0 0 2 originV =
        some cexStoredWeights
    ∧ ¬(|((clamp_vertex_influences 4 cexStoredWeights).map Prod.snd).sum - 1| ≤ 1e-6) := by
  have hepos : (0 : ℝ) < Real.exp (-(128/25)) := Real.exp_pos _
  have hT : (0 : ℝ) < 1 + Real.exp (-(128/25)) := by linarith
  constructor
  · rw [show effectiveBoneNames "core" ["A", "B"] = ["A", "B"] from rfl]
    unfold skinVertex
    simp only [show (originV.x - 0) / max (2 : ℝ) 1e-6 = 0 from by norm_num [originV],
      show (originV.z - 0) / max (2 : ℝ) 1e-6 = 0 from by norm_num [originV]]
    exact vw_cex
  · have hclamp : clamp_vertex_influences 4 cexStoredWeights = cexStoredWeights := by
      unfold clamp_vertex_influences
      rw [if_neg (by norm_num)]
      have hfil : (cexStoredWeights.filter fun p => decide (0 < p.2)) = cexStoredWeights := by
        refine List.filter_eq_self.mpr ?_
        intro a ha
        rw [cexStoredWeights, List.mem_singleton] at ha
        rw [ha]
        exact decide_eq_true (by positivity)
      rw [hfil, if_pos (by rw [cexStoredWeights]; norm_num)]
    rw [hclamp, cexStoredWeights]
    simp only [List.map_cons, List.map_nil, List.sum_cons, List.sum_nil, add_zero]
    rw [not_le]
    have hsum : 1 / (1 + Real.exp (-(128/25))) - 1 =
        -(Real.exp (-(128/25)) / (1 + Real.exp (-(128/25)))) := by
      field_simp
    rw [hsum, abs_neg, abs_of_pos (div_pos hepos hT)]
    rw [show (1e-6 : ℝ) = 1/1000000 from by norm_num, div_lt_div_iff₀ (by norm_num) hT]
    nlinarith [exp_cex_lb, exp_cex_ub]

end Autorig
